import Mathlib

/-!
Shallow embedding of the world-engine spec interpreter (src/engine.js).

Modelling conventions:
* JavaScript double arithmetic is modelled by exact rational arithmetic over ℚ.
  Every quantity the claims depend on is integer-valued, clamped to [0,1], or an
  exact dyadic rational, so the idealisation does not change any claim.
* Math.hypot has no rational closed form; it is an abstract parameter of the
  environment (JsEnv.hypot), as is the extra whitelist character set that
  readWhitelistChars loads from disk (JsEnv.extra).  Theorems hold for every
  instantiation of the environment.
* 32-bit operations (Math.imul, the shifts and xors of xfnv1a) are modelled on ℕ
  modulo 2^32; every JavaScript step is congruent to the modelled step mod 2^32
  and the emitted value is (h >>> 0) / 2^32, an exact dyadic rational.
* Strings are hashed through their UTF-16 code units, as charCodeAt does.
* Thrown Error values are modelled by the structured type Err; the message text
  (including the op index some messages embed) is not modelled.
* The sampler's mutable visiting set keys on (name, x, y) triples; the source
  keys on the string name@x,y, an injective encoding of the same data.
* Recursion in sampleLayer and in the scatter placement loop is fuel-indexed;
  the engine invokes them with fuel layers.length + 1 (always sufficient, since
  the visiting set bounds the evaluation depth) and maxAttempts respectively.
* Only the core of Generate is modelled, from an already-resolved spec document
  to the returned WorldOutput: the spec-acquisition collaborator (LLM fetch and
  the full fallbackSpec path taken for a non-object document) and the
  WORLD_ENGINE_OUTFILE file-writing side branch are outside the modelled core;
  the tiles part of fallbackSpec is embedded because Generate falls back to it
  whenever spec.tiles is absent.
* The two parallel grids bgGrid/fgGrid are modelled as one grid of pairs; the
  output-composition loop of Generate then pairs them componentwise, which is
  the identity on the paired representation (fgGrid entries are never undefined
  in the model, so the undefined-to-null normalisation is also the identity).
-/

/-- Reduction modulo 2^32, the range of JavaScript's ToUint32. -/
def u32 (n : Nat) : Nat := n % 4294967296

/-- Math.imul: 32-bit integer multiplication; tracked modulo 2^32. -/
def imul32 (a b : Nat) : Nat := u32 (a * b)

/-- Seeding loop of xfnv1a: h starts at 2166136261 and folds h ^= c; h = imul(h, 16777619)
over the code units of the string. -/
def xfnv1aSeed (units : List Nat) : Nat :=
  units.foldl (fun h c => imul32 (h ^^^ c) 16777619) 2166136261

/-- One step of the xorshift-style mixer inside the closure returned by xfnv1a:
h += h shl 13; h ^= h shr 7; h += h shl 3; h ^= h shr 17; h += h shl 5.
Addition is exact in doubles at these magnitudes and every bit operation is
congruent mod 2^32, so tracking h mod 2^32 is exact. -/
def rngStep (h : Nat) : Nat :=
  let h1 := u32 (h + u32 (h * 8192))
  let h2 := h1 ^^^ (h1 / 128)
  let h3 := u32 (h2 + u32 (h2 * 8))
  let h4 := h3 ^^^ (h3 / 131072)
  u32 (h4 + u32 (h4 * 32))

/-- One call of the generator closure: advance the state and emit (h >>> 0) / 2^32. -/
def rngDraw (h : Nat) : ℚ × Nat :=
  let h2 := rngStep h
  ((h2 : ℚ) / 4294967296, h2)

/-- First output of a fresh xfnv1a generator, as used for one-shot hashes. -/
def rngOut (h : Nat) : ℚ := (rngDraw h).1

/-- UTF-16 code units of one character (surrogate pair above U+FFFF). -/
def charUnits (c : Char) : List Nat :=
  if c.toNat < 65536 then [c.toNat]
  else [55296 + (c.toNat - 65536) / 1024, 56320 + (c.toNat - 65536) % 1024]

/-- UTF-16 code units of a string, the view charCodeAt iterates. -/
def jsCodeUnits (s : String) : List Nat :=
  (s.data.map charUnits).flatten

/-- Seed state of xfnv1a(s). -/
def hashStr (s : String) : Nat := xfnv1aSeed (jsCodeUnits s)

/-- Engine's clamp01: 0 below zero, 1 above one, x otherwise. -/
def clamp01 (x : ℚ) : ℚ := if x < 0 then 0 else if x > 1 then 1 else x

/-- Engine's safeNum: absent (non-finite) numbers fall back to the default, then
the value is clamped into [lo, hi]. -/
def safeNum (n : Option ℚ) (d lo hi : ℚ) : ℚ := max lo (min hi (n.getD d))

/-- Engine's safeInt: floor the value (default when absent), then clamp. -/
def safeInt (n : Option ℚ) (d lo hi : Int) : Int :=
  max lo (min hi (match n with | some q => ⌊q⌋ | none => d))

/-- Wrapped-to-non-negative modulus ((a % n) + n) % n with JavaScript's
truncated remainder, as used by roads.grid. -/
def wrapMod (a n : Int) : Int := (a.tmod n + n).tmod n

/-- Abstract pieces of the JavaScript runtime the engine consumes: Math.hypot
(irrational, hence not representable in ℚ) and the extra whitelist characters
read from unicode-whitelist.txt. -/
structure JsEnv where
  hypot : ℚ → ℚ → ℚ
  extra : Char → Bool

/-- Membership in the readWhitelistChars set: printable ASCII plus the external
extension set, minus the explicitly removed whitespace characters. -/
def allowedChar (env : JsEnv) (c : Char) : Bool :=
  ((decide (32 ≤ c.toNat) && decide (c.toNat ≤ 126)) || env.extra c)
    && !(c == '\n' || c == '\r' || c == '\t')

/-- Fade curve 6t^5 - 15t^4 + 10t^3 of makeValueNoise2D. -/
def fade (t : ℚ) : ℚ := t * t * t * (t * (t * 6 - 15) + 10)

/-- Linear interpolation a + (b - a) * t. -/
def nlerp (a b t : ℚ) : ℚ := a + (b - a) * t

/-- Table lookup index (i & 255) on a 32-bit integer, i.e. i mod 256. -/
def idx256 (i : Int) : Nat := (i.emod 256).toNat

/-- Gradient value of makeValueNoise2D: perm[(ix + perm[iy & 255]) & 255] / 255 * 2 - 1. -/
def grad (perm : List Nat) (ix iy : Int) : ℚ :=
  let v := perm.getD (idx256 (ix + (perm.getD (idx256 iy) 0 : Nat))) 0
  (v : ℚ) / 255 * 2 - 1

/-- The 2D value-noise field built by makeValueNoise2D from a permutation table. -/
def noise2D (perm : List Nat) (x y : ℚ) : ℚ :=
  let x0 : Int := ⌊x⌋
  let y0 : Int := ⌊y⌋
  let x1 := x0 + 1
  let y1 := y0 + 1
  let sx := fade (x - x0)
  let sy := fade (y - y0)
  let n00 := grad perm x0 y0
  let n10 := grad perm x1 y0
  let n01 := grad perm x0 y1
  let n11 := grad perm x1 y1
  let ix0 := nlerp n00 n10 sx
  let ix1 := nlerp n01 n11 sx
  let val := nlerp ix0 ix1 sy
  (val + 1) / 2

/-- Accumulator loop of octaveNoise; returns (sum, norm). -/
def octAux (noiseFn : ℚ → ℚ → ℚ) (x y persistence : ℚ) :
    Nat → ℚ → ℚ → ℚ → ℚ → ℚ × ℚ
  | 0, _, _, sum, norm => (sum, norm)
  | Nat.succ n, amp, freq, sum, norm =>
      octAux noiseFn x y persistence n (amp * persistence) (freq * 2)
        (sum + noiseFn (x * freq) (y * freq) * amp) (norm + amp)

/-- Engine's octaveNoise: octaves of doubling frequency and decaying amplitude,
normalised by total amplitude (norm || 1). -/
def octaveNoise (noiseFn : ℚ → ℚ → ℚ) (x y : ℚ) (octaves : Nat) (persistence : ℚ) : ℚ :=
  let sn := octAux noiseFn x y persistence octaves 1 1 0 0
  sn.1 / (if sn.2 = 0 then 1 else sn.2)

/-- Fisher-Yates pass of makeValueNoise2D: processes indices i, i-1, ..., 1,
drawing j = floor(rand() * (i + 1)) from the seeded stream and swapping. -/
def fyAux : Nat → List Nat → Nat → List Nat × Nat
  | 0, l, h => (l, h)
  | Nat.succ i, l, h =>
      let d := rngDraw h
      let j := (⌊d.1 * (i + 2 : Nat)⌋).toNat
      let l2 := (l.set (i + 1) (l.getD j 0)).set j (l.getD (i + 1) 0)
      fyAux i l2 d.2

/-- Permutation table of makeValueNoise2D (the duplicated upper half is never
read by grad, which masks every index with & 255, so only 256 entries are kept). -/
def permTable (h : Nat) : List Nat × Nat :=
  fyAux 255 (List.range 256) h

/-- Structured model of the Error values the engine throws.  Message strings
(and the op index some of them embed) are not modelled. -/
inductive Err where
  | bgEmpty
  | badColor (id : String)
  | badSymbol (id : String)
  | badId (id : String)
  | dupId (id : String)
  | tooManyLayers
  | tooManyOps
  | unknownLayer (name : String)
  | layerCycle (name : String)
  | unsupportedLayerType (ty name : String)
  | unknownBgId (id : String)
  | unknownFgId (id : String)
  | badPrefabs
  | unsupportedOp (ty : String)
  | fuelExhausted
deriving DecidableEq

/-- Shape variants of shapeContains.  Numeric fields are Option ℚ (absent or
non-finite JSON values take the safeNum / safeInt defaults). -/
inductive Shape where
  | rect (x y w h : Option ℚ) (round : Option ℚ)
  | roundRect (x y w h : Option ℚ) (round : Option ℚ)
  | circle (cx cy r : Option ℚ)
  | polygon (points : List (ℚ × ℚ))
  | line (a b : Option (ℚ × ℚ)) (thickness : Option ℚ)
  | otherS

/-- One ray-casting step of pointInPoly, for edge (xj, yj) - (xi, yi). -/
def rayStep (x y xi yi xj yj : ℚ) (inside : Bool) : Bool :=
  if ((decide (yi > y)) != (decide (yj > y)))
      && decide (x < (xj - xi) * (y - yi) / (if yj - yi = 0 then 1 / 1000000000 else yj - yi) + xi)
  then !inside else inside

/-- Fold of pointInPoly: j trails i, starting from the last vertex. -/
def pipAux (x y : ℚ) : (ℚ × ℚ) → List (ℚ × ℚ) → Bool → Bool
  | _, [], inside => inside
  | pj, pi :: rest, inside =>
      pipAux x y pi rest (rayStep x y pi.1 pi.2 pj.1 pj.2 inside)

/-- Engine's pointInPoly ray-casting parity test. -/
def pointInPoly (poly : List (ℚ × ℚ)) (x y : ℚ) : Bool :=
  pipAux x y (poly.getLastD (0, 0)) poly false

/-- Engine's distPointToSegment (the final distance goes through hypot). -/
def distPointToSegment (env : JsEnv) (px py ax ay bx By : ℚ) : ℚ :=
  let abx := bx - ax
  let aby := By - ay
  let apx := px - ax
  let apy := py - ay
  let ab2 := abx * abx + aby * aby
  let t := if ab2 = 0 then 0 else max 0 (min 1 ((apx * abx + apy * aby) / ab2))
  let cx := ax + t * abx
  let cy := ay + t * aby
  env.hypot (px - cx) (py - cy)

/-- Engine's shapeContains. -/
def shapeContains (env : JsEnv) (s : Option Shape) (x y : ℚ) : Bool :=
  match s with
  | none => false
  | some (.rect sx sy sw sh rnd) => rectContains env false sx sy sw sh rnd x y
  | some (.roundRect sx sy sw sh rnd) => rectContains env true sx sy sw sh rnd x y
  | some (.circle cx cy r) =>
      let cxq := safeNum cx 0 (-1000000000) 1000000000
      let cyq := safeNum cy 0 (-1000000000) 1000000000
      let rq := safeNum r 0 0 1000000000
      decide (env.hypot (x - cxq) (y - cyq) ≤ rq)
  | some (.polygon pts) => if pts.length < 3 then false else pointInPoly pts x y
  | some (.line a b th) =>
      match a, b with
      | some av, some bv =>
          let thickness := safeNum (some (th.getD 1)) 1 (1 / 10) 1000000
          decide (distPointToSegment env x y av.1 av.2 bv.1 bv.2 ≤ thickness / 2)
      | _, _ => false
  | some .otherS => false
where
  /-- Shared rect / roundRect branch of shapeContains. -/
  rectContains (env : JsEnv) (rounded : Bool) (sx sy sw sh rnd : Option ℚ) (x y : ℚ) : Bool :=
    let rx : Int := safeInt sx 0 (-1000000000) 1000000000
    let ry : Int := safeInt sy 0 (-1000000000) 1000000000
    let rw : Int := safeInt sw 0 0 1000000000
    let rh : Int := safeInt sh 0 0 1000000000
    if rw ≤ 0 || rh ≤ 0 then false
    else
      let round := safeNum (some (rnd.getD 0)) 0 0 1000000
      if round ≤ 0 || !rounded then
        decide (x ≥ rx) && decide (x < rx + rw) && decide (y ≥ ry) && decide (y < ry + rh)
      else if !(decide (x ≥ rx) && decide (x < rx + rw) && decide (y ≥ ry) && decide (y < ry + rh))
      then false
      else
        let r := min round (min ((rw : ℚ) / 2) ((rh : ℚ) / 2))
        let left := rx + r
        let right := rx + rw - r
        let top := ry + r
        let bottom := ry + rh - r
        if decide (x ≥ left) && decide (x < right) then true
        else if decide (y ≥ top) && decide (y < bottom) then true
        else
          let cx := if x < left then left else right
          let cy := if y < top then top else bottom
          decide (env.hypot (x - cx) (y - cy) ≤ r)

/-- Predicate language of predTrue.  Each constructor is one recognised key;
the first recognised key of a JSON predicate object decides its meaning.
allBad / anyBad model a truthy non-array all: / any: value (evaluating to
false); unrecognised predicate objects are otherP (fail-closed false). -/
inductive JPred where
  | allP (ps : List JPred)
  | allBad
  | anyP (ps : List JPred)
  | anyBad
  | notP (p : JPred)
  | layerGt (name : String) (t : ℚ)
  | layerLt (name : String) (t : ℚ)
  | layerBetween (name : String) (lo hi : ℚ)
  | shapeP (s : Option Shape)
  | chanceP (c : ℚ) (sd : Option String)
  | otherP

/-- Operand of a combine layer: a layer reference or a literal constant
(absent and non-numeric constants coerce to 0 through Number(c) || 0). -/
inductive LOperand where
  | ref (name : String)
  | constV (q : ℚ)

/-- The t parameter of a combine layer: absent, a number, or a two-element
array (smoothstep edges).  Number() of a two-element array is NaN, hence
falsy, so pair behaves like absent wherever Number(t) || 0.5 is evaluated. -/
inductive CombineT where
  | noneT
  | num (q : ℚ)
  | pair (e0 e1 : ℚ)

/-- Layer definitions of the layer DSL.  Numeric fields are Option ℚ, taking
the safeNum / safeInt defaults when absent or non-finite. -/
inductive LayerDef where
  | constL (value : ℚ)
  | fbm (scale octaves persistence : Option ℚ) (sd : Option String)
  | valueNoise (scale : Option ℚ) (sd : Option String)
  | radialGradient (cx cy r : Option ℚ) (invert : Bool)
  | shapeL (s : Option Shape)
  | combineL (op : Option String) (a b : LOperand) (t : CombineT)
  | unsupported (ty : String)

/-- Number(t) || 0.5, the effective parameter of lerp and threshold: a zero,
absent, or array-valued t falls back to 0.5. -/
def tNum : CombineT → ℚ
  | .num q => if q = 0 then 1 / 2 else q
  | _ => 1 / 2

/-- Smoothstep branch of combine: edges from a two-element array t (defaults
0.4 / 0.6), guarded division, cubic smoothing. -/
def smoothstepF (a : ℚ) (t : CombineT) : ℚ :=
  let e0 := match t with | .pair u _ => u | _ => 2 / 5
  let e1 := match t with | .pair _ v => v | _ => 3 / 5
  let d := e1 - e0
  let x := clamp01 ((a - e0) / (if d = 0 then 1 / 1000000000 else d))
  x * x * (3 - 2 * x)

/-- Engine's combine operator dispatch (unknown ops return a). -/
def combine (op : String) (a b : ℚ) (t : CombineT) : ℚ :=
  if op = "add" then clamp01 (a + b)
  else if op = "sub" then clamp01 (a - b)
  else if op = "mul" then clamp01 (a * b)
  else if op = "min" then min a b
  else if op = "max" then max a b
  else if op = "lerp" then a + (b - a) * clamp01 (tNum t)
  else if op = "threshold" then (if a ≥ tNum t then 1 else 0)
  else if op = "smoothstep" then smoothstepF a t
  else a

/-- String(def.op || 'mul'): absent or empty op means mul. -/
def effOp (o : Option String) : String :=
  match o with
  | some s => if s = "" then ("mul") else s
  | none => ("mul")

/-- def.seed || name: the per-layer seed key (empty or absent seed falls back
to the layer name). -/
def layerSeedKey (name : String) (sd : Option String) : String :=
  match sd with
  | some s => if s = "" then name else s
  | none => name

/-- Per-layer stable offsets: floor of 20000 times the first outputs of
xfnv1a(seed|layer|key) and xfnv1a(seed|layer2|key).  The source memoises
these per key; the memo is observationally a pure function. -/
def layerOffset (seed key : String) : ℚ × ℚ :=
  let ox := (⌊rngOut (hashStr (seed ++ ("|layer|") ++ key)) * 20000⌋ : Int)
  let oy := (⌊rngOut (hashStr (seed ++ ("|layer2|") ++ key)) * 20000⌋ : Int)
  ((ox : ℚ), (oy : ℚ))

/-- Everything makeLayerSampler closes over: the environment, the run seed,
the fixed world size, the layer mapping and the shared base noise field. -/
structure SArgs where
  env : JsEnv
  seed : String
  width : Nat
  height : Nat
  layers : List (String × LayerDef)
  noise : ℚ → ℚ → ℚ

/-- Key of the sampler's in-progress set (source: the string name@x,y). -/
abbrev VisitKey := String × Int × Int

/-- Fuel-indexed model of sampleLayer.  const layers return their cached
clamped value before the cycle check; every other evaluation pushes its key,
evaluates the body, and clamps the result to [0,1].  On an error the source
propagates the exception without popping keys, but no caller observes the set
afterwards; a successful operand evaluation pops every key it pushed, so
passing the extended set unchanged to the next operand is faithful. -/
def sampleLayerF (A : SArgs) : Nat → List VisitKey → String → Int → Int → Except Err ℚ
  | 0, _, _, _, _ => .error .fuelExhausted
  | Nat.succ fuel, visiting, name, x, y =>
    match A.layers.lookup name with
    | none => .error (.unknownLayer name)
    | some (.constL v) => .ok (clamp01 v)
    | some d =>
      if (name, x, y) ∈ visiting then .error (.layerCycle name)
      else
        let vis := (name, x, y) :: visiting
        Except.map clamp01
          (match d with
           | .constL v => .ok (clamp01 v)
           | .fbm sc oc pe sd =>
               let scale := safeNum sc (1 / 100) (1 / 1000000) 1
               let octaves := (safeInt oc 3 1 8).toNat
               let persistence := safeNum pe (1 / 2) (1 / 20) (19 / 20)
               let off := layerOffset A.seed (layerSeedKey name sd)
               .ok (octaveNoise A.noise ((x + off.1) * scale) ((y + off.2) * scale)
                      octaves persistence)
           | .valueNoise sc sd =>
               let scale := safeNum sc (1 / 100) (1 / 1000000) 1
               let off := layerOffset A.seed (layerSeedKey name sd)
               .ok (A.noise ((x + off.1) * scale) ((y + off.2) * scale))
           | .radialGradient cx cy r invert =>
               let cxq := safeNum cx ((A.width : ℚ) / 2) (-1000000000) 1000000000
               let cyq := safeNum cy ((A.height : ℚ) / 2) (-1000000000) 1000000000
               let rq := safeNum r (min (A.width : ℚ) (A.height : ℚ) / 2) 1 1000000000
               let v := 1 - min 1 (A.env.hypot (x - cxq) (y - cyq) / rq)
               .ok (if invert then 1 - v else v)
           | .shapeL s => .ok (if shapeContains A.env s x y then 1 else 0)
           | .combineL op a b t =>
               (match a with
                | .ref r => sampleLayerF A fuel vis r x y
                | .constV q => .ok (clamp01 q)) >>= fun va =>
               (match b with
                | .ref r => sampleLayerF A fuel vis r x y
                | .constV q => .ok (clamp01 q)) >>= fun vb =>
               .ok (combine (effOp op) va vb t)
           | .unsupported ty => .error (.unsupportedLayerType ty name))

/-- Context predTrue receives: the environment, the run seed, and the
sampler closure. -/
structure PCtx where
  env : JsEnv
  seed : String
  sample : String → Int → Int → Except Err ℚ

mutual

/-- Engine's predTrue on a predicate object (absent predicates are handled by
predOptTrue).  Layer comparisons thread sampler errors; chance draws a
one-shot hash of seed|chance|subseed|x,y. -/
def predTrue (C : PCtx) : JPred → Int → Int → Except Err Bool
  | .allP ps, x, y => predAllTrue C ps x y
  | .allBad, _, _ => .ok false
  | .anyP ps, x, y => predAnyTrue C ps x y
  | .anyBad, _, _ => .ok false
  | .notP p, x, y => do
      let b ← predTrue C p x y
      .ok (!b)
  | .layerGt name t, x, y => do
      let v ← C.sample name x y
      .ok (decide (v > t))
  | .layerLt name t, x, y => do
      let v ← C.sample name x y
      .ok (decide (v < t))
  | .layerBetween name lo hi, x, y => do
      let v ← C.sample name x y
      .ok (decide (v ≥ lo) && decide (v ≤ hi))
  | .shapeP s, x, y => .ok (shapeContains C.env s (x : ℚ) (y : ℚ))
  | .chanceP c sd, x, y =>
      let p := clamp01 c
      let rr := rngOut (hashStr (C.seed ++ ("|chance|") ++ sd.getD ("") ++ ("|")
        ++ toString x ++ (",") ++ toString y))
      .ok (decide (rr < p))
  | .otherP, _, _ => .ok false

/-- Array.prototype.every with short-circuiting, as pred.all uses it. -/
def predAllTrue (C : PCtx) : List JPred → Int → Int → Except Err Bool
  | [], _, _ => .ok true
  | p :: ps, x, y => do
      let b ← predTrue C p x y
      if b then predAllTrue C ps x y else .ok false

/-- Array.prototype.some with short-circuiting, as pred.any uses it. -/
def predAnyTrue (C : PCtx) : List JPred → Int → Int → Except Err Bool
  | [], _, _ => .ok false
  | p :: ps, x, y => do
      let b ← predTrue C p x y
      if b then .ok true else predAnyTrue C ps x y

end

/-- Gate evaluation: a missing predicate is always true. -/
def predOptTrue (C : PCtx) : Option JPred → Int → Int → Except Err Bool
  | none, _, _ => .ok true
  | some p, x, y => predTrue C p x y

/-- Background tile definition (id, name, color, walkable). -/
structure BgTile where
  id : String
  name : String
  color : String
  walkable : Bool
deriving DecidableEq, Inhabited

/-- Foreground tile definition (id, name, symbol, color, walkable). -/
structure FgTile where
  id : String
  name : String
  symbol : String
  color : String
  walkable : Bool
deriving DecidableEq

/-- The tiles block of a spec. -/
structure Tiles where
  background : List BgTile
  foreground : List FgTile
deriving DecidableEq

/-- The regex ID_RE = /^[a-z0-9][a-z0-9_-]\x7b0,15\x7d$/ on code units. -/
def isIdStart (c : Char) : Bool :=
  (decide (97 ≤ c.toNat) && decide (c.toNat ≤ 122))
    || (decide (48 ≤ c.toNat) && decide (c.toNat ≤ 57))

/-- Continuation character class of ID_RE. -/
def isIdChar (c : Char) : Bool := isIdStart c || c == '_' || c == '-'

/-- Test of ID_RE. -/
def idOk (s : String) : Bool :=
  match s.data with
  | [] => false
  | c :: rest => isIdStart c && decide (rest.length ≤ 15) && rest.all isIdChar

/-- Hexadecimal digit class of HEX_RE. -/
def isHexDigit (c : Char) : Bool :=
  (decide (48 ≤ c.toNat) && decide (c.toNat ≤ 57))
    || (decide (97 ≤ c.toNat) && decide (c.toNat ≤ 102))
    || (decide (65 ≤ c.toNat) && decide (c.toNat ≤ 70))

/-- The regex HEX_RE = /^#[0-9a-fA-F]\x7b6\x7d$/. -/
def hexOk (s : String) : Bool :=
  match s.data with
  | c :: rest => c == '#' && decide (rest.length = 6) && rest.all isHexDigit
  | [] => false

/-- UTF-16 length of a string, JavaScript's .length. -/
def u16Len (s : String) : Nat := (jsCodeUnits s).length

/-- Field checks of validateTiles on background tiles (name and walkable are
well-typed by construction; the color must match HEX_RE). -/
def checkBgFields : List BgTile → Except Err Unit
  | [] => .ok ()
  | t :: ts => if hexOk t.color then checkBgFields ts else .error (.badColor t.id)

/-- Field checks of validateTiles on foreground tiles: 1..4-unit symbol and a
hex color. -/
def checkFgFields : List FgTile → Except Err Unit
  | [] => .ok ()
  | t :: ts =>
      if !(decide (1 ≤ u16Len t.symbol) && decide (u16Len t.symbol ≤ 4))
      then .error (.badSymbol t.id)
      else if hexOk t.color then checkFgFields ts else .error (.badColor t.id)

/-- Engine's uniqIds: every id matches ID_RE and repeats are fatal. -/
def uniqIds (seen : List String) : List String → Except Err Unit
  | [] => .ok ()
  | i :: rest =>
      if !idOk i then .error (.badId i)
      else if i ∈ seen then .error (.dupId i)
      else uniqIds (i :: seen) rest

/-- Engine's validateTiles: non-empty background list, per-tile field checks,
id validation, and the two id sets handed to the op executor. -/
def validateTiles (t : Tiles) : Except Err (List String × List String) := do
  if t.background.length < 1 then .error .bgEmpty
  else do
    let _ ← checkBgFields t.background
    let _ ← checkFgFields t.foreground
    let _ ← uniqIds [] (t.background.map (fun b => b.id))
    let _ ← uniqIds [] (t.foreground.map (fun f => f.id))
    .ok (t.background.map (fun b => b.id), t.foreground.map (fun f => f.id))

/-- ASCII fallback glyph list of the whitelist repair step. -/
def fallbackSyms : List Char := ['^', '*', 'o', '@', '#', '~', '+', 'x']

/-- Whitelist enforcement on one foreground tile: empty symbols are skipped, a
disallowed first code point is replaced by a deterministic ASCII fallback, and
multi-unit symbols are shrunk to their first code point. -/
def sanitizeFg (env : JsEnv) (t : FgTile) : FgTile :=
  match t.symbol.data with
  | [] => t
  | ch :: _ =>
      if !allowedChar env ch then
        let i := (u16Len t.id + ch.toNat) % 8
        FgTile.mk t.id t.name (String.mk [fallbackSyms.getD i ('^')]) t.color t.walkable
      else if decide (u16Len t.symbol > 1) then
        FgTile.mk t.id t.name (String.mk [ch]) t.color t.walkable
      else t

/-- Lower-case hexadecimal digit, as Number.prototype.toString(16) emits. -/
def hexDigitChar (n : Nat) : Char :=
  if n < 10 then Char.ofNat (48 + n) else Char.ofNat (87 + n)

/-- Two-digit hexadecimal byte with the padStart(2, '0') of rgbToHex. -/
def hexByte (n : Nat) : String := String.mk [hexDigitChar (n / 16), hexDigitChar (n % 16)]

/-- Engine's rgbToHex. -/
def rgbToHex (r g b : Nat) : String := ("#") ++ hexByte r ++ hexByte g ++ hexByte b

/-- One color channel of fallbackSpec: floor(r() * 200) + 30. -/
def colByte (v : ℚ) : Nat := (⌊v * 200⌋).toNat + 30

/-- Background tile loop of fallbackSpec (walkable except tile 0). -/
def fbLoopBg : Nat → Nat → Nat → List BgTile × Nat
  | 0, _, h => ([], h)
  | Nat.succ k, i, h =>
      let d1 := rngDraw h
      let d2 := rngDraw d1.2
      let d3 := rngDraw d2.2
      let t := BgTile.mk (("bg") ++ toString i) (("BG ") ++ toString i)
        (rgbToHex (colByte d1.1) (colByte d2.1) (colByte d3.1)) (decide (i ≠ 0))
      let rest := fbLoopBg k (i + 1) d3.2
      (t :: rest.1, rest.2)

/-- Symbol palette of fallbackSpec. -/
def fbSymbols : List Char := ['■', '▲', '◆', '●', '▣', '▦', '▥']

/-- Foreground tile loop of fallbackSpec (all walkable). -/
def fbLoopFg : Nat → Nat → Nat → List FgTile × Nat
  | 0, _, h => ([], h)
  | Nat.succ k, i, h =>
      let d1 := rngDraw h
      let d2 := rngDraw d1.2
      let d3 := rngDraw d2.2
      let t := FgTile.mk (("fg") ++ toString i) (("FG ") ++ toString i)
        (String.mk [fbSymbols.getD (i % 7) ('■')])
        (rgbToHex (colByte d1.1) (colByte d2.1) (colByte d3.1)) true
      let rest := fbLoopFg k (i + 1) d3.2
      (t :: rest.1, rest.2)

/-- Tiles block of fallbackSpec(reference): 6 background and 4 foreground tiles
with colors drawn from xfnv1a('tiles|' + reference). -/
def fallbackTiles (reference : String) : Tiles :=
  let h0 := hashStr (("tiles|") ++ reference)
  let bgs := fbLoopBg 6 0 h0
  let fgs := fbLoopFg 4 0 bgs.2
  Tiles.mk bgs.1 fgs.1

/-- The op.fg field of a paint op: absent, explicit null (clear), or an id. -/
inductive FgField where
  | absent
  | nullF
  | idF (s : String)
deriving DecidableEq

/-- A paint op. -/
structure PaintOp where
  whereP : Option JPred
  bg : Option String
  fg : FgField

/-- The fgAtIntersections block of a roads.grid op. -/
structure InterDef where
  id : Option String
  p : Option ℚ
  sd : Option String

/-- A roads.grid op. -/
structure RoadsOp where
  whereP : Option JPred
  bg : String
  origin : Option (ℚ × ℚ)
  spacing : Option ℚ
  thickness : Option ℚ
  inter : Option InterDef

/-- A scatter prefab as written in the spec (fields may be absent). -/
structure Prefab where
  w : Option ℚ
  h : Option ℚ
  bg : Option String
  fg : Option String
  p : Option ℚ
deriving DecidableEq, Inhabited

/-- A stamp.scatter op. -/
structure ScatterOp where
  sd : Option String
  whereP : Option JPred
  count : Option ℚ
  maxAttempts : Option ℚ
  prefabs : Option (List Prefab)

/-- One entry of the ops array: a non-object entry (null, number, string,
boolean — silently skipped), one of the three known op shapes, or an object
with an unrecognised (or missing, modelled as "") type tag. -/
inductive OpEntry where
  | nonObject
  | paint (op : PaintOp)
  | roadsGrid (op : RoadsOp)
  | stampScatter (op : ScatterOp)
  | unknownOp (ty : String)

/-- One grid cell: background id and optional foreground id. -/
abbrev Cell := String × Option String

/-- The mutable world grid (row-major, rows of cells). -/
abbrev Grid := List (List Cell)

/-- requireBg of Generate. -/
def requireBg (bgIds : List String) (id : String) : Except Err Unit :=
  if id ∈ bgIds then .ok () else .error (.unknownBgId id)

/-- requireFgOrNull of Generate, on a present id. -/
def requireFg (fgIds : List String) (id : String) : Except Err Unit :=
  if id ∈ fgIds then .ok () else .error (.unknownFgId id)

/-- Cell loop of one row (x counts up from the given start). -/
def rowMapE (f : Int → Cell → Except Err Cell) : List Cell → Int → Except Err (List Cell)
  | [], _ => .ok []
  | c :: cs, x => do
      let c2 ← f x c
      let cs2 ← rowMapE f cs (x + 1)
      .ok (c2 :: cs2)

/-- Row loop over the whole grid (y counts up from the given start). -/
def gridMapE (f : Int → Int → Cell → Except Err Cell) :
    List (List Cell) → Int → Except Err (List (List Cell))
  | [], _ => .ok []
  | r :: rs, y => do
      let r2 ← rowMapE (fun x c => f x y c) r 0
      let rs2 ← gridMapE f rs (y + 1)
      .ok (r2 :: rs2)

/-- Per-cell body of the paint op: gate, then set background (if provided) and
foreground (if the key is present, null clearing it). -/
def paintCell (C : PCtx) (p : PaintOp) (x y : Int) (c : Cell) : Except Err Cell := do
  let ok ← predOptTrue C p.whereP x y
  if ok then
    .ok ((match p.bg with | some b => b | none => c.1),
         (match p.fg with | .absent => c.2 | .nullF => none | .idF s => some s))
  else .ok c

/-- The paint op: validate the tile references, then run the grid loop. -/
def execPaint (C : PCtx) (bgIds fgIds : List String) (p : PaintOp) (g : Grid) :
    Except Err Grid := do
  let _ ← (match p.bg with | some b => requireBg bgIds b | none => .ok ())
  let _ ← (match p.fg with
           | .absent => .ok ()
           | .nullF => .ok ()
           | .idF s => requireFg fgIds s)
  gridMapE (fun x y c => paintCell C p x y c) g 0

/-- Per-cell body of roads.grid: gate, wrapped grid-phase computation, road
background, and the seeded foreground marker at intersections. -/
def roadsCell (C : PCtx) (whereP : Option JPred) (bgId : String)
    (ox oy spacing thickness : Int) (interId : Option String) (interP : ℚ)
    (interSeed : String) (x y : Int) (c : Cell) : Except Err Cell := do
  let ok ← predOptTrue C whereP x y
  if !ok then .ok c
  else
    let gx := wrapMod (x - ox) spacing
    let gy := wrapMod (y - oy) spacing
    let onV := decide (gx < thickness)
    let onH := decide (gy < thickness)
    if !(onV || onH) then .ok c
    else
      let fg2 := match interId with
        | some iid =>
            if decide (interP > 0) && onV && onH
                && decide (rngOut (hashStr (C.seed ++ ("|roads|") ++ interSeed ++ ("|")
                     ++ toString x ++ (",") ++ toString y)) < interP)
            then some iid else c.2
        | none => c.2
      .ok (bgId, fg2)

/-- The roads.grid op: validate references, normalise parameters, run the grid
loop. -/
def execRoads (C : PCtx) (bgIds fgIds : List String) (r : RoadsOp) (g : Grid) :
    Except Err Grid := do
  let _ ← requireBg bgIds r.bg
  let ox := safeInt (r.origin.map (fun p => p.1)) 0 (-1000000000) 1000000000
  let oy := safeInt (r.origin.map (fun p => p.2)) 0 (-1000000000) 1000000000
  let spacing := safeInt r.spacing 20 2 200
  let thickness := safeInt r.thickness 2 1 20
  let iv ← (match r.inter with
    | some i => do
        let _ ← (match i.id with | some s => requireFg fgIds s | none => .ok ())
        .ok (i.id, clamp01 (i.p.getD 0), i.sd.getD (""))
    | none => .ok ((none : Option String), (0 : ℚ), ("")))
  gridMapE (fun x y c => roadsCell C r.whereP r.bg ox oy spacing thickness
    iv.1 iv.2.1 iv.2.2 x y c) g 0

/-- A scatter prefab after the per-op validation pass normalised it. -/
structure NPrefab where
  w : Nat
  h : Nat
  bg : Option String
  fg : Option String
  p : ℚ
deriving DecidableEq, Inhabited

/-- Prefab validation loop of stamp.scatter: clamp w/h into [1,200], check tile
references, clamp the weight into [0,1] (the source writes these back into the
prefab objects). -/
def normalizePrefabs (bgIds fgIds : List String) : List Prefab → Except Err (List NPrefab)
  | [] => .ok []
  | pf :: rest => do
      let w := (safeInt pf.w 1 1 200).toNat
      let h := (safeInt pf.h 1 1 200).toNat
      let _ ← (match pf.bg with | some b => requireBg bgIds b | none => .ok ())
      let _ ← (match pf.fg with | some f => requireFg fgIds f | none => .ok ())
      let rest2 ← normalizePrefabs bgIds fgIds rest
      .ok (NPrefab.mk w h pf.bg pf.fg (clamp01 (pf.p.getD 1)) :: rest2)

/-- Weight pickWeighted reads off one prefab: Math.max(0, Number(it.p ?? 1) || 0). -/
def pfWeight (it : NPrefab) : ℚ := max 0 it.p

/-- Cumulative-weight scan of pickWeighted. -/
def cumScan (t : ℚ) : List NPrefab → Option NPrefab
  | [] => none
  | it :: rest =>
      let t2 := t - pfWeight it
      if t2 ≤ 0 then some it else cumScan t2 rest

/-- Engine's pickWeighted: on a non-positive weight sum it returns the FIRST
item without consuming the stream; otherwise it draws once and scans, falling
back to the last item. -/
def pickWeighted (h : Nat) (items : List NPrefab) : NPrefab × Nat :=
  let sum := (items.map pfWeight).sum
  if sum ≤ 0 then (items.headI, h)
  else
    let d := rngDraw h
    ((cumScan (d.1 * sum) items).getD (items.getLastD default), d.2)

/-- Engine's canPlace: inside the grid and every covered occupancy cell clear. -/
def canPlace (occ : Nat → Bool) (width height : Nat) (x0 y0 : Int) (w h : Nat) : Bool :=
  if decide (x0 < 0) || decide (y0 < 0) || decide (x0 + w > (width : Int))
      || decide (y0 + h > (height : Int)) then false
  else
    (List.range h).all (fun dy =>
      (List.range w).all (fun dx => !occ ((y0.toNat + dy) * width + (x0.toNat + dx))))

/-- Engine's markPlace on the occupancy bitmap. -/
def markPlace (occ : Nat → Bool) (width x0 y0 w h : Nat) : Nat → Bool :=
  fun i => occ i ||
    (List.range h).any (fun dy =>
      (List.range w).any (fun dx => i == (y0 + dy) * width + (x0 + dx)))

/-- Background stamp of a placed prefab over one row segment. -/
def setRow (x0 w : Nat) (b : String) : List Cell → Nat → List Cell
  | [], _ => []
  | c :: cs, x =>
      (if x0 ≤ x ∧ x < x0 + w then (b, c.2) else c) :: setRow x0 w b cs (x + 1)

/-- Background stamp of a placed prefab over its full footprint. -/
def setRectBg (x0 y0 w h : Nat) (b : String) : Grid → Nat → Grid
  | [], _ => []
  | r :: rs, y =>
      (if y0 ≤ y ∧ y < y0 + h then setRow x0 w b r 0 else r) :: setRectBg x0 y0 w h b rs (y + 1)

/-- Row update of the center-cell foreground write. -/
def setFgRow (cx : Nat) (f : String) : List Cell → Nat → List Cell
  | [], _ => []
  | c :: cs, x => (if x = cx then (c.1, some f) else c) :: setFgRow cx f cs (x + 1)

/-- Foreground write at the center cell of a placed prefab. -/
def setCellFg (cx cy : Nat) (f : String) : Grid → Nat → Grid
  | [], _ => []
  | r :: rs, y =>
      (if y = cy then setFgRow cx f r 0 else r) :: setCellFg cx cy f rs (y + 1)

/-- One recorded placement (ghost data: the source only marks the occupancy
bitmap; the loop below additionally records each accepted footprint). -/
structure Place where
  x : Nat
  y : Nat
  w : Nat
  h : Nat
deriving DecidableEq

/-- Result of the scatter placement loop.  placements lists the accepted
footprints in placement order and attempts counts executed loop iterations;
both are ghost observations of the source loop. -/
structure ScatterRes where
  grid : Grid
  placed : Nat
  placements : List Place
  attempts : Nat
deriving DecidableEq

/-- The placement loop of stamp.scatter: up to maxAttempts iterations (the
fuel) or until count placements; each iteration draws a prefab, a position,
gates on the predicate at the stamp center, rejects occupied footprints, then
stamps background, center foreground, and the occupancy bitmap. -/
def scatterLoop (C : PCtx) (whereP : Option JPred) (prefabs : List NPrefab)
    (count width height : Nat) :
    Nat → Nat → Grid → (Nat → Bool) → Nat → List Place → Nat → Except Err ScatterRes
  | 0, _, g, _, placed, acc, att => .ok (ScatterRes.mk g placed acc.reverse att)
  | Nat.succ fuel, h, g, occ, placed, acc, att =>
      if placed ≥ count then .ok (ScatterRes.mk g placed acc.reverse att)
      else do
        let pk := pickWeighted h prefabs
        let pf := pk.1
        let d1 := rngDraw pk.2
        let x0 : Int := ⌊d1.1 * ((width : ℚ) - pf.w + 1)⌋
        let d2 := rngDraw d1.2
        let y0 : Int := ⌊d2.1 * ((height : ℚ) - pf.h + 1)⌋
        let cx := x0 + (pf.w / 2 : Nat)
        let cy := y0 + (pf.h / 2 : Nat)
        let ok ← predOptTrue C whereP cx cy
        if !ok then scatterLoop C whereP prefabs count width height fuel d2.2 g occ placed acc (att + 1)
        else if !canPlace occ width height x0 y0 pf.w pf.h then
          scatterLoop C whereP prefabs count width height fuel d2.2 g occ placed acc (att + 1)
        else
          let g1 := match pf.bg with
            | some b => setRectBg x0.toNat y0.toNat pf.w pf.h b g 0
            | none => g
          let g2 := match pf.fg with
            | some f => setCellFg cx.toNat cy.toNat f g1 0
            | none => g1
          scatterLoop C whereP prefabs count width height fuel d2.2 g2
            (markPlace occ width x0.toNat y0.toNat pf.w pf.h) (placed + 1)
            (Place.mk x0.toNat y0.toNat pf.w pf.h :: acc) (att + 1)

/-- The stamp.scatter op: normalise parameters and prefabs, seed the draw
stream from reference|scatter|seed, and run the placement loop on a fresh
occupancy bitmap. -/
def execScatter (C : PCtx) (bgIds fgIds : List String) (width height : Nat)
    (op : ScatterOp) (g : Grid) : Except Err ScatterRes := do
  let seedStr := match op.sd with
    | some s => if s = "" then ("scatter") else s
    | none => ("scatter")
  let count := (safeInt op.count 200 1 200000).toNat
  let maxA := (safeInt op.maxAttempts ((safeInt op.count 200 1 200000) * 10) 1 400000).toNat
  let prefabs := match op.prefabs with | some l => l | none => []
  if !(decide (1 ≤ prefabs.length) && decide (prefabs.length ≤ 128)) then .error .badPrefabs
  else do
    let nprefabs ← normalizePrefabs bgIds fgIds prefabs
    let h0 := hashStr (C.seed ++ ("|scatter|") ++ seedStr)
    scatterLoop C op.whereP nprefabs count width height maxA h0 g (fun _ => false) 0 [] 0

/-- Dispatch on one ops entry: non-objects are skipped, the three known types
execute, anything else is the fatal unsupported-op error. -/
def execOp (C : PCtx) (bgIds fgIds : List String) (width height : Nat) :
    OpEntry → Grid → Except Err Grid
  | .nonObject, g => .ok g
  | .paint p, g => execPaint C bgIds fgIds p g
  | .roadsGrid r, g => execRoads C bgIds fgIds r g
  | .stampScatter s, g => Except.map (fun res => res.grid) (execScatter C bgIds fgIds width height s g)
  | .unknownOp ty, _ => .error (.unsupportedOp ty)

/-- The op loop of Generate: strictly in order, errors abort. -/
def execOpsList (C : PCtx) (bgIds fgIds : List String) (width height : Nat) :
    List OpEntry → Grid → Except Err Grid
  | [], g => .ok g
  | op :: rest, g => do
      let g2 ← execOp C bgIds fgIds width height op g
      execOpsList C bgIds fgIds width height rest g2

/-- A spec document as the engine consumes it.  world is carried but ignored
(Generate overwrites it with the fixed 200 by 200 size); absent tiles fall
back to the fallbackSpec tiles; absent layers / ops default to empty. -/
structure WorldSpec where
  world : Option (Nat × Nat)
  tiles : Option Tiles
  layers : Option (List (String × LayerDef))
  ops : Option (List OpEntry)

/-- The output document: tiles echoed (after symbol sanitisation) plus the
area block, cells in row-major order. -/
structure WorldOutput where
  tiles : Tiles
  width : Nat
  height : Nat
  cells : List (List Cell)
deriving DecidableEq

/-- The core of Generate, from spec document and reference seed to output:
tile validation, whitelist enforcement, limit checks, sampler construction,
grid initialisation with the first background tile, the op loop, and output
composition (the identity on the paired grid representation). -/
def generate (env : JsEnv) (spec : WorldSpec) (reference : String) : Except Err WorldOutput := do
  let tiles0 := match spec.tiles with | some t => t | none => fallbackTiles reference
  let ids ← validateTiles tiles0
  let tiles1 := Tiles.mk tiles0.background (tiles0.foreground.map (sanitizeFg env))
  let layers := match spec.layers with | some l => l | none => []
  let ops := match spec.ops with | some l => l | none => []
  if layers.length > 128 then .error .tooManyLayers
  else if ops.length > 256 then .error .tooManyOps
  else do
    let baseH := hashStr reference
    let perm := (permTable baseH).1
    let A : SArgs := SArgs.mk env reference 200 200 layers (noise2D perm)
    let C : PCtx := PCtx.mk env reference
      (fun n x y => sampleLayerF A (layers.length + 1) [] n x y)
    let defaultBg := (tiles0.background.headI).id
    let g0 : Grid := List.replicate 200 (List.replicate 200 (defaultBg, none))
    let gF ← execOpsList C ids.1 ids.2 200 200 ops g0
    .ok (WorldOutput.mk tiles1 200 200 gF)

/-- Id-integrity property of one cell: background id among the validated
background ids, foreground empty or among the validated foreground ids. -/
def CellOk (bgIds fgIds : List String) (c : Cell) : Prop :=
  c.1 ∈ bgIds ∧ (c.2 = none ∨ ∃ s, c.2 = some s ∧ s ∈ fgIds)

/-- Id integrity over a whole grid. -/
def GridOk (bgIds fgIds : List String) (g : Grid) : Prop :=
  ∀ row ∈ g, ∀ c ∈ row, CellOk bgIds fgIds c

/-- Shape of a grid: exactly h rows of exactly w cells each. -/
def GridShape (w h : Nat) (g : Grid) : Prop :=
  g.length = h ∧ ∀ row ∈ g, row.length = w

/-- Membership of a cell coordinate in a placement footprint. -/
def inFoot (p : Place) (a b : Nat) : Prop :=
  p.x ≤ a ∧ a < p.x + p.w ∧ p.y ≤ b ∧ b < p.y + p.h

/-- Disjointness of two placement footprints. -/
def PlaceDisj (p q : Place) : Prop := ∀ a b, inFoot p a b → ¬ inFoot q a b

/-- Layer names referenced by an operand. -/
def operandRefs : LOperand → List String
  | .ref r => [r]
  | .constV _ => []

/-- Layer names referenced by a combine layer (empty for other types). -/
def combineRefs : LayerDef → List String
  | .combineL _ a b _ => operandRefs a ++ operandRefs b
  | _ => []

/-- Reference edge of the combine graph: layer n is defined and one of its
operands references m. -/
def combineEdge (layers : List (String × LayerDef)) (n m : String) : Prop :=
  ∃ d, layers.lookup n = some d ∧ m ∈ combineRefs d

/-- Specification-side description of one roads.grid row with spacing 20,
thickness 2 and origin (0,0): the background becomes the road id exactly where
x mod 20 below 2 or y mod 20 below 2, everything else is untouched. -/
def roadsSpecRow (b : String) (y : Nat) : List Cell → Nat → List Cell
  | [], _ => []
  | c :: cs, x =>
      (if x % 20 < 2 ∨ y % 20 < 2 then (b, c.2) else c) :: roadsSpecRow b y cs (x + 1)

/-- Specification-side description of the roads.grid scenario over a grid. -/
def roadsSpecGrid (b : String) : List (List Cell) → Nat → List (List Cell)
  | [], _ => []
  | r :: rs, y => roadsSpecRow b y r 0 :: roadsSpecGrid b rs (y + 1)

/-- A concrete environment instance used by witnesses and counterexamples. -/
def env0 : JsEnv := JsEnv.mk (fun _ _ => 0) (fun _ => false)

/-- The background tile of the paint scenario: bg0, walkable, color #101010. -/
def tileBg0 : BgTile := BgTile.mk ("bg0") ("bg0") ("#101010") true

/-- The paint scenario spec: one background tile, no foreground tiles, empty
layers, a single unconditional paint of bg0, on a requested 4 by 4 grid. -/
def spec4 : WorldSpec :=
  WorldSpec.mk (some (4, 4)) (some (Tiles.mk [tileBg0] []))
    (some []) (some [OpEntry.paint (PaintOp.mk none (some ("bg0")) FgField.absent)])

/-- The output the engine actually produces for spec4: a 200 by 200 grid of
bg0 cells with no foreground. -/
def out4 : WorldOutput :=
  WorldOutput.mk (Tiles.mk [tileBg0] []) 200 200
    (List.replicate 200 (List.replicate 200 (("bg0"), none)))

/-- A minimal spec with no ops, used to witness the id-integrity theorem. -/
def specW : WorldSpec := WorldSpec.mk none (some (Tiles.mk [tileBg0] [])) none none

/-- Output of the engine on specW. -/
def outW : WorldOutput :=
  WorldOutput.mk (Tiles.mk [tileBg0] []) 200 200
    (List.replicate 200 (List.replicate 200 (("bg0"), none)))

/-- Layer mapping whose layer L references itself through its second operand
while its first operand references an undefined layer M. -/
def cycleLayersM : List (String × LayerDef) :=
  [(("L"), LayerDef.combineL none (LOperand.ref ("M")) (LOperand.ref ("L")) CombineT.noneT)]

/-- Sampler arguments over cycleLayersM. -/
def cycleArgsM : SArgs := SArgs.mk env0 ("s") 200 200 cycleLayersM (fun _ _ => 0)

/-- Layer mapping with a single threshold combine layer over constant
operands, parameterised by the operand constants and the t parameter. -/
def thLayers (ca cb : ℚ) (t : CombineT) : List (String × LayerDef) :=
  [(("T"), LayerDef.combineL (some ("threshold")) (LOperand.constV ca) (LOperand.constV cb) t)]

/-- Sampler arguments over thLayers. -/
def thArgs (ca cb : ℚ) (t : CombineT) : SArgs :=
  SArgs.mk env0 ("s") 200 200 (thLayers ca cb t) (fun _ _ => 0)

/-- Sampler arguments over a single constant layer, used as a witness input. -/
def constArgs : SArgs :=
  SArgs.mk env0 ("s") 200 200 [(("c"), LayerDef.constL 0)] (fun _ _ => 0)

/-- Normalised prefab with zero weight, 1 by 1 footprint. -/
def pfA : NPrefab := NPrefab.mk 1 1 none none 0

/-- Normalised prefab with zero weight, 2 by 2 footprint. -/
def pfB : NPrefab := NPrefab.mk 2 2 none none 0

/-- Normalised prefab with weight one, 1 by 1 footprint. -/
def pfOne : NPrefab := NPrefab.mk 1 1 none none 1

/-- A predicate context whose sampler always throws; the predicate-free ops
used around it never consult it. -/
def pctx0 : PCtx := PCtx.mk env0 ("s") (fun _ _ _ => .error .fuelExhausted)

/-- Layer mapping with a direct self-reference through the first operand,
used to witness the cycle theorem. -/
def cycleLayersD : List (String × LayerDef) :=
  [(("L"), LayerDef.combineL none (LOperand.ref ("L")) (LOperand.constV 0) CombineT.noneT)]

/-- Sampler arguments over cycleLayersD. -/
def cycleArgsD : SArgs := SArgs.mk env0 ("s") 200 200 cycleLayersD (fun _ _ => 0)

/-- The roads.grid op of the periodicity scenario: spacing 20, thickness 2,
origin (0,0), no gate, no intersection markers. -/
def roadsOp20 (b : String) : RoadsOp :=
  RoadsOp.mk none b (some (0, 0)) (some 20) (some 2) none

theorem clamp01_bounds (x : ℚ) : 0 ≤ clamp01 x ∧ clamp01 x ≤ 1 := by
  unfold clamp01
  split
  · exact ⟨le_refl 0, by norm_num⟩
  · split
    · exact ⟨by norm_num, le_refl 1⟩
    · rename_i h1 h2
      exact ⟨le_of_not_lt h1, le_of_not_lt h2⟩

theorem exceptBind_ok {α β : Type} {m : Except Err α} {f : α → Except Err β} {b : β}
    (h : (m >>= f) = .ok b) : ∃ a, m = .ok a ∧ f a = .ok b := by
  cases m with
  | error e => simp [Bind.bind, Except.bind] at h
  | ok a => exact ⟨a, rfl, by simpa [Bind.bind, Except.bind] using h⟩

theorem exceptMap_ok {α β : Type} {f : α → β} {m : Except Err α} {b : β}
    (h : Except.map f m = .ok b) : ∃ a, m = .ok a ∧ b = f a := by
  cases m with
  | error e => simp [Except.map] at h
  | ok a =>
      refine ⟨a, rfl, ?_⟩
      simp [Except.map] at h
      exact h.symm

theorem sampleLayerF_lookup_none {A : SArgs} {fuel : Nat} {vis : List VisitKey}
    {name : String} {x y : Int} (hl : A.layers.lookup name = none) :
    sampleLayerF A (fuel + 1) vis name x y = .error (.unknownLayer name) := by
  unfold sampleLayerF
  rw [hl]

theorem sampleLayerF_combine {A : SArgs} {fuel : Nat} {vis : List VisitKey}
    {name : String} {x y : Int} {op : Option String} {a b : LOperand} {t : CombineT}
    (hl : A.layers.lookup name = some (.combineL op a b t)) :
    sampleLayerF A (fuel + 1) vis name x y =
      if (name, x, y) ∈ vis then .error (.layerCycle name)
      else
        Except.map clamp01
          ((match a with
            | .ref r => sampleLayerF A fuel ((name, x, y) :: vis) r x y
            | .constV q => .ok (clamp01 q)) >>= fun va =>
           (match b with
            | .ref r => sampleLayerF A fuel ((name, x, y) :: vis) r x y
            | .constV q => .ok (clamp01 q)) >>= fun vb =>
           .ok (combine (effOp op) va vb t)) := by
  conv_lhs => rw [sampleLayerF]
  rw [hl]

theorem sampleLayerF_ok_clamp {A : SArgs} {fuel : Nat} {vis : List VisitKey}
    {name : String} {x y : Int} {v : ℚ}
    (h : sampleLayerF A fuel vis name x y = .ok v) : ∃ w, v = clamp01 w := by
  cases fuel with
  | zero => simp [sampleLayerF] at h
  | succ fuel =>
      unfold sampleLayerF at h
      split at h
      · exact absurd h (by simp)
      · rename_i v0 _
        exact ⟨v0, by injection h with h2; exact h2.symm⟩
      · split at h
        · exact absurd h (by simp)
        · obtain ⟨w, _, hw⟩ := exceptMap_ok h
          exact ⟨w, hw⟩

/-- C5: whenever sampleLayer returns a value for any layer name, layer type
and coordinate (rather than throwing), that value lies in [0, 1]: the const
path caches a clamped constant and every other evaluation path clamps its
result before returning. -/
theorem sampleLayer_range (A : SArgs) (fuel : Nat) (vis : List VisitKey)
    (name : String) (x y : Int) (v : ℚ)
    (h : sampleLayerF A fuel vis name x y = .ok v) : 0 ≤ v ∧ v ≤ 1 := by
  obtain ⟨w, rfl⟩ := sampleLayerF_ok_clamp h
  exact clamp01_bounds w

theorem sampleLayer_range_witness :
    sampleLayerF constArgs 1 [] ("c") 0 0 = .ok 0 ∧ (0 ≤ (0 : ℚ) ∧ (0 : ℚ) ≤ 1) := by
  have h : sampleLayerF constArgs 1 [] ("c") 0 0 = .ok 0 := by
    show Except.ok (clamp01 0) = _
    norm_num [clamp01]
  exact ⟨h, sampleLayer_range constArgs 1 [] ("c") 0 0 0 h⟩

/-- C8 counterexample: on a two-prefab list whose weights sum to zero,
pickWeighted returns the FIRST prefab of the list (without consuming the
stream), not the last one the claim names. -/
theorem pickWeighted_zero_counterexample :
    (pickWeighted 7 [pfA, pfB]).1 = pfA ∧ [pfA, pfB].getLastD default = pfB ∧ pfA ≠ pfB := by
  refine ⟨?_, rfl, by decide⟩
  norm_num [pickWeighted, pfWeight, pfA, pfB]

/-- C8 amended: when the clamped prefab weights sum to zero, pickWeighted
returns the first prefab of the (non-empty) list and leaves the random stream
unconsumed; the last-prefab fallback belongs to the cumulative scan, whose
remainder cannot survive the scan in exact arithmetic. -/
theorem pickWeighted_zero_sum (h : Nat) (items : List NPrefab)
    (_hne : items ≠ []) (hsum : (items.map pfWeight).sum = 0) :
    pickWeighted h items = (items.headI, h) := by
  unfold pickWeighted
  rw [hsum]
  norm_num

theorem pickWeighted_zero_sum_witness :
    ([pfA] ≠ ([] : List NPrefab)) ∧ ((List.map pfWeight [pfA]).sum = 0)
      ∧ pickWeighted 5 [pfA] = ([pfA].headI, 5) := by
  have h1 : [pfA] ≠ ([] : List NPrefab) := by simp
  have h2 : (List.map pfWeight [pfA]).sum = 0 := by norm_num [pfWeight, pfA]
  exact ⟨h1, h2, pickWeighted_zero_sum 5 [pfA] h1 h2⟩

theorem combine_threshold (a b : ℚ) (t : CombineT) :
    combine ("threshold") a b t = if a ≥ tNum t then 1 else 0 := by
  unfold combine
  rw [if_neg (by decide), if_neg (by decide), if_neg (by decide), if_neg (by decide),
    if_neg (by decide), if_neg (by decide), if_pos rfl]

/-- C9 counterexample: with an explicit t of 0 the threshold combine is NOT
the step function at 0 — Number(t) || 0.5 replaces a zero t by 0.5, so the
layer with a = 0.3 samples to 0 although 0.3 ≥ 0. -/
theorem threshold_zero_t_counterexample :
    sampleLayerF (thArgs (3 / 10) 0 (CombineT.num 0)) 1 [] ("T") 0 0 = .ok 0
      ∧ ((3 : ℚ) / 10 ≥ 0) ∧ (0 : ℚ) ≠ 1 := by
  refine ⟨?_, by norm_num, by norm_num⟩
  have hl : (thArgs (3 / 10) 0 (CombineT.num 0)).layers.lookup ("T")
      = some (.combineL (some ("threshold")) (.constV (3 / 10)) (.constV 0) (.num 0)) := rfl
  rw [show (1 : Nat) = 0 + 1 from rfl, sampleLayerF_combine hl]
  simp only [List.not_mem_nil, if_false]
  rw [show effOp (some ("threshold")) = ("threshold") from rfl]
  simp only [Bind.bind, Except.bind, Except.map]
  rw [combine_threshold]
  norm_num [tNum, clamp01]

/-- C9 amended: the threshold combine is the step function at the EFFECTIVE
parameter Number(t) || 0.5 — i.e. at t when t is a non-zero number and at 0.5
when t is absent, zero, or an array — for all operand values; in particular
the 0.6/0.5 scenario samples to 1 everywhere and the 0.4/0.5 scenario to 0. -/
theorem threshold_step (ca cb : ℚ) (t : CombineT) (f : Nat) (x y : Int) :
    sampleLayerF (thArgs ca cb t) (f + 1) [] ("T") x y
        = .ok (if clamp01 ca ≥ tNum t then 1 else 0)
      ∧ sampleLayerF (thArgs (6 / 10) 0 (CombineT.num (5 / 10))) (f + 1) [] ("T") x y = .ok 1
      ∧ sampleLayerF (thArgs (4 / 10) 0 (CombineT.num (5 / 10))) (f + 1) [] ("T") x y = .ok 0 := by
  have main : ∀ ca cb : ℚ, ∀ t : CombineT,
      sampleLayerF (thArgs ca cb t) (f + 1) [] ("T") x y
        = .ok (if clamp01 ca ≥ tNum t then 1 else 0) := by
    intro ca cb t
    have hl : (thArgs ca cb t).layers.lookup ("T")
        = some (.combineL (some ("threshold")) (.constV ca) (.constV cb) t) := rfl
    rw [sampleLayerF_combine hl]
    simp only [List.not_mem_nil, if_false]
    rw [show effOp (some ("threshold")) = ("threshold") from rfl]
    simp only [Bind.bind, Except.bind, Except.map]
    rw [combine_threshold]
    by_cases hc : clamp01 ca ≥ tNum t
    · rw [if_pos hc]
      norm_num [clamp01]
    · rw [if_neg hc]
      norm_num [clamp01]
  refine ⟨main ca cb t, ?_, ?_⟩
  · rw [main (6 / 10) 0 (CombineT.num (5 / 10))]
    norm_num [clamp01, tNum]
  · rw [main (4 / 10) 0 (CombineT.num (5 / 10))]
    norm_num [clamp01, tNum]

/-- C1: the embedded generation core is a pure function of the environment,
the spec document and the reference seed — two runs on identical arguments
produce identical results (hence identical tiles and cells in identical
order), and the scatter placement list is likewise a pure function of its
arguments, so placement sets and orders coincide as well.  All randomness in
the embedding is derived from xfnv1a hash states of the seed string, exactly
as in the source. -/
theorem generate_deterministic (env : JsEnv) (s1 s2 : WorldSpec) (r1 r2 : String)
    (hs : s1 = s2) (hr : r1 = r2) :
    generate env s1 r1 = generate env s2 r2 ∧
      (∀ o1 o2, generate env s1 r1 = .ok o1 → generate env s2 r2 = .ok o2 →
        o1.tiles = o2.tiles ∧ o1.width = o2.width ∧ o1.height = o2.height
          ∧ o1.cells = o2.cells) ∧
      (∀ sample bgIds fgIds w h op g res1 res2,
        execScatter (PCtx.mk env r1 sample) bgIds fgIds w h op g = .ok res1 →
        execScatter (PCtx.mk env r2 sample) bgIds fgIds w h op g = .ok res2 →
        res1.placements = res2.placements) := by
  subst hs
  subst hr
  refine ⟨rfl, ?_, ?_⟩
  · intro o1 o2 h1 h2
    rw [h1] at h2
    injection h2 with h3
    rw [h3]
    exact ⟨rfl, rfl, rfl, rfl⟩
  · intro sample bgIds fgIds w h op g res1 res2 h1 h2
    rw [h1] at h2
    injection h2 with h3
    rw [h3]

theorem generate_deterministic_witness :
    (specW = specW) ∧ (("s" : String) = ("s")) ∧
      generate env0 specW ("s") = generate env0 specW ("s") :=
  ⟨rfl, rfl, (generate_deterministic env0 specW specW ("s") ("s") rfl rfl).1⟩

/-- C10: a null or non-object entry of the ops array is silently skipped — the
run is identical to the run without that entry — while an object entry whose
type is missing or unrecognised aborts the run with the unsupported-operation
error, both at the head of the list and after any successfully executed
prefix. -/
theorem ops_nonObject_skip (C : PCtx) (bgIds fgIds : List String) (w h : Nat) :
    (∀ l1 l2 g, execOpsList C bgIds fgIds w h (l1 ++ OpEntry.nonObject :: l2) g
        = execOpsList C bgIds fgIds w h (l1 ++ l2) g) ∧
    (∀ ty l2 g, execOpsList C bgIds fgIds w h (OpEntry.unknownOp ty :: l2) g
        = .error (.unsupportedOp ty)) ∧
    (∀ ty l1 l2 g g1, execOpsList C bgIds fgIds w h l1 g = .ok g1 →
      execOpsList C bgIds fgIds w h (l1 ++ OpEntry.unknownOp ty :: l2) g
        = .error (.unsupportedOp ty)) := by
  have skip : ∀ l1 l2 g, execOpsList C bgIds fgIds w h (l1 ++ OpEntry.nonObject :: l2) g
      = execOpsList C bgIds fgIds w h (l1 ++ l2) g := by
    intro l1
    induction l1 with
    | nil => intro l2 g; simp [execOpsList, execOp, Bind.bind, Except.bind]
    | cons op l1 ih =>
        intro l2 g
        simp only [List.cons_append, execOpsList]
        cases hop : execOp C bgIds fgIds w h op g with
        | error e => simp [Bind.bind, Except.bind, hop]
        | ok g2 => simp [Bind.bind, Except.bind, hop, ih]
  have headErr : ∀ ty l2 g, execOpsList C bgIds fgIds w h (OpEntry.unknownOp ty :: l2) g
      = .error (.unsupportedOp ty) := by
    intro ty l2 g
    simp [execOpsList, execOp, Bind.bind, Except.bind]
  refine ⟨skip, headErr, ?_⟩
  intro ty l1
  induction l1 with
  | nil =>
      intro l2 g g1 hok
      injection hok with h2
      rw [List.nil_append]
      exact headErr ty l2 g
  | cons op l1 ih =>
      intro l2 g g1 hok
      simp only [execOpsList] at hok
      obtain ⟨g2, hg2, hrest⟩ := exceptBind_ok hok
      simp only [List.cons_append, execOpsList, hg2, Bind.bind, Except.bind]
      exact ih l2 g2 g1 hrest

theorem ops_nonObject_skip_witness :
    execOpsList pctx0 [] [] 1 1 [] [] = .ok []
      ∧ execOpsList pctx0 [] [] 1 1 ([] ++ OpEntry.unknownOp ("zap") :: []) []
          = .error (.unsupportedOp ("zap")) :=
  ⟨rfl, (ops_nonObject_skip pctx0 [] [] 1 1).2.2 ("zap") [] [] [] [] rfl⟩

theorem transGen_cycle_step {α : Type} {r : α → α → Prop} {n : α}
    (h : Relation.TransGen r n n) : ∃ m, r n m ∧ Relation.TransGen r m m := by
  rcases Relation.TransGen.head'_iff.mp h with ⟨m, hnm, hmn⟩
  exact ⟨m, hnm, Relation.TransGen.tail' hmn hnm⟩

theorem combineEdge_dest {layers : List (String × LayerDef)} {n m : String}
    (h : combineEdge layers n m) :
    ∃ op a b t, layers.lookup n = some (.combineL op a b t)
      ∧ (a = LOperand.ref m ∨ b = LOperand.ref m) := by
  obtain ⟨d, hl, hm⟩ := h
  cases d with
  | combineL op a b t =>
      refine ⟨op, a, b, t, hl, ?_⟩
      rcases List.mem_append.mp (by simpa [combineRefs] using hm) with h2 | h2
      · left
        cases a with
        | ref r =>
            simp [operandRefs] at h2
            rw [h2]
        | constV q => simp [operandRefs] at h2
      · right
        cases b with
        | ref r =>
            simp [operandRefs] at h2
            rw [h2]
        | constV q => simp [operandRefs] at h2
  | constL v => simp [combineRefs] at hm
  | fbm sc oc pe sd => simp [combineRefs] at hm
  | valueNoise sc sd => simp [combineRefs] at hm
  | radialGradient cx cy r invert => simp [combineRefs] at hm
  | shapeL s => simp [combineRefs] at hm
  | unsupported ty => simp [combineRefs] at hm

/-- C4 amended: a layer lying on a cycle of combine references never samples
to a value, at any fuel, visiting set and coordinate — evaluation always
throws.  The error is the layer-cycle error when the in-progress key is
re-entered, but an operand evaluated before the cycle closes can throw its
own error first (see the counterexample), so the thrown error is not always
the cycle error. -/
theorem combineCycle_no_value (A : SArgs) : ∀ (fuel : Nat) (name : String),
    Relation.TransGen (combineEdge A.layers) name name →
    ∀ (vis : List VisitKey) (x y : Int) (v : ℚ),
      sampleLayerF A fuel vis name x y ≠ .ok v := by
  intro fuel
  induction fuel with
  | zero =>
      intro name _ vis x y v
      simp [sampleLayerF]
  | succ fuel ih =>
      intro name hcyc vis x y v
      obtain ⟨m, hedge, hmc⟩ := transGen_cycle_step hcyc
      obtain ⟨op, a, b, t, hl, hab⟩ := combineEdge_dest hedge
      rw [sampleLayerF_combine hl]
      split
      · simp
      · intro hok
        obtain ⟨w, hw, _⟩ := exceptMap_ok hok
        obtain ⟨va, hva, hrest⟩ := exceptBind_ok hw
        obtain ⟨vb, hvb, _⟩ := exceptBind_ok hrest
        rcases hab with ha | hb
        · rw [ha] at hva
          exact ih m hmc ((name, x, y) :: vis) x y va hva
        · rw [hb] at hvb
          exact ih m hmc ((name, x, y) :: vis) x y vb hvb

/-- C4 counterexample: the layer L references itself through its b operand
(a combine-reference cycle), yet sampling L does not raise the layer-cycle
error — its a operand references the undefined layer M, and that error is
thrown first.  The claim that every transitively self-referencing combine
layer raises a layer-cycle error is therefore false as stated. -/
theorem cycle_error_counterexample :
    Relation.TransGen (combineEdge cycleLayersM) ("L") ("L")
      ∧ sampleLayerF cycleArgsM 3 [] ("L") 0 0 = .error (.unknownLayer ("M"))
      ∧ Err.unknownLayer ("M") ≠ Err.layerCycle ("L") := by
  refine ⟨?_, rfl, by decide⟩
  exact Relation.TransGen.single
    ⟨LayerDef.combineL none (LOperand.ref ("M")) (LOperand.ref ("L")) CombineT.noneT,
     rfl, by simp [combineRefs, operandRefs]⟩

theorem combineCycle_no_value_witness :
    Relation.TransGen (combineEdge cycleLayersD) ("L") ("L")
      ∧ sampleLayerF cycleArgsD 5 [] ("L") 0 0 ≠ .ok 0 := by
  have he : Relation.TransGen (combineEdge cycleLayersD) ("L") ("L") :=
    Relation.TransGen.single
      ⟨LayerDef.combineL none (LOperand.ref ("L")) (LOperand.constV 0) CombineT.noneT,
       rfl, by simp [combineRefs, operandRefs]⟩
  exact ⟨he, combineCycle_no_value cycleArgsD 5 ("L") he [] 0 0 0⟩

theorem wrapMod_natCast (k : Nat) : wrapMod (k : ℤ) 20 = ((k % 20 : Nat) : ℤ) := by
  unfold wrapMod
  rw [show ((k : ℤ)).tmod 20 = (k : ℤ) % 20 from
    Int.tmod_eq_emod (Int.natCast_nonneg k) (by norm_num)]
  have h0 : (0 : ℤ) ≤ (k : ℤ) % 20 + 20 := by
    have := Int.emod_nonneg (k : ℤ) (show (20 : ℤ) ≠ 0 by norm_num)
    omega
  rw [Int.tmod_eq_emod h0 (by norm_num)]
  omega

theorem roadsCell_spec (C : PCtx) (b : String) (k j : Nat) (c : Cell) :
    roadsCell C none b 0 0 20 2 none 0 ("") (k : Int) (j : Int) c
      = .ok (if k % 20 < 2 ∨ j % 20 < 2 then (b, c.2) else c) := by
  have hk : wrapMod ((k : ℤ) - 0) 20 = ((k % 20 : Nat) : ℤ) := by
    rw [sub_zero]
    exact wrapMod_natCast k
  have hj : wrapMod ((j : ℤ) - 0) 20 = ((j % 20 : Nat) : ℤ) := by
    rw [sub_zero]
    exact wrapMod_natCast j
  unfold roadsCell
  simp only [predOptTrue, Bind.bind, Except.bind, hk, hj, Bool.not_true, Bool.false_eq_true,
    if_false]
  by_cases hcond : k % 20 < 2 ∨ j % 20 < 2
  · have hb : (decide (((k % 20 : Nat) : ℤ) < 2) || decide (((j % 20 : Nat) : ℤ) < 2)) = true := by
      simp only [Bool.or_eq_true, decide_eq_true_eq]
      omega
    rw [if_pos hcond, hb]
    simp
  · have hb : (decide (((k % 20 : Nat) : ℤ) < 2) || decide (((j % 20 : Nat) : ℤ) < 2)) = false := by
      simp only [Bool.or_eq_false_iff, decide_eq_false_iff_not]
      omega
    rw [if_neg hcond, hb]
    simp

theorem roadsRow_spec (C : PCtx) (b : String) (l : List Cell) (j : Nat) : ∀ k : Nat,
    rowMapE (fun x c => roadsCell C none b 0 0 20 2 none 0 ("") x (j : Int) c) l (k : Int)
      = .ok (roadsSpecRow b j l k) := by
  induction l with
  | nil => intro k; rfl
  | cons c cs ih =>
      intro k
      simp only [rowMapE, roadsSpecRow]
      rw [roadsCell_spec C b k j c]
      simp only [Bind.bind, Except.bind]
      rw [show ((k : ℤ) + 1) = ((k + 1 : Nat) : ℤ) from by push_cast; ring, ih (k + 1)]

theorem roadsGrid_spec (C : PCtx) (b : String) (g : Grid) : ∀ j : Nat,
    gridMapE (fun x y c => roadsCell C none b 0 0 20 2 none 0 ("") x y c) g (j : Int)
      = .ok (roadsSpecGrid b g j) := by
  induction g with
  | nil => intro j; rfl
  | cons r rs ih =>
      intro j
      simp only [gridMapE, roadsSpecGrid]
      rw [show rowMapE (fun x c => roadsCell C none b 0 0 20 2 none 0 ("") x (j : Int) c) r 0
          = .ok (roadsSpecRow b j r 0) from by simpa using roadsRow_spec C b r j 0]
      simp only [Bind.bind, Except.bind]
      rw [show ((j : ℤ) + 1) = ((j + 1 : Nat) : ℤ) from by push_cast; ring, ih (j + 1)]

/-- C7: the roads.grid op with spacing 20, thickness 2, origin (0,0) and no
gate sets the background to the road id at exactly the in-grid cells with
x mod 20 below 2 or y mod 20 below 2 and leaves every other cell (and every
foreground entry) unchanged — the equation against the specification-side
transform roadsSpecGrid states both directions at once. -/
theorem roads_grid_periodicity (C : PCtx) (bgIds fgIds : List String) (b : String)
    (g : Grid) (hb : b ∈ bgIds) :
    execOp C bgIds fgIds 200 200 (OpEntry.roadsGrid (roadsOp20 b)) g
      = .ok (roadsSpecGrid b g 0) := by
  show execRoads C bgIds fgIds (roadsOp20 b) g = _
  unfold execRoads
  rw [show requireBg bgIds (roadsOp20 b).bg = .ok () from by
    simp [requireBg, roadsOp20, hb]]
  simp only [Bind.bind, Except.bind, roadsOp20]
  rw [show safeInt ((some ((0 : ℚ), (0 : ℚ))).map (fun p => p.1)) 0 (-1000000000) 1000000000 = 0 from by
    norm_num [safeInt]]
  rw [show safeInt ((some ((0 : ℚ), (0 : ℚ))).map (fun p => p.2)) 0 (-1000000000) 1000000000 = 0 from by
    norm_num [safeInt]]
  rw [show safeInt (some (20 : ℚ)) 20 2 200 = 20 from by norm_num [safeInt]]
  rw [show safeInt (some (2 : ℚ)) 2 1 20 = 2 from by norm_num [safeInt]]
  simpa using roadsGrid_spec C b g 0

theorem roads_grid_periodicity_witness :
    (("r") ∈ [("r")]) ∧
      execOp pctx0 [("r")] [] 200 200 (OpEntry.roadsGrid (roadsOp20 ("r"))) [[(("g"), none)]]
        = .ok (roadsSpecGrid ("r") [[(("g"), none)]] 0) :=
  ⟨by decide, roads_grid_periodicity pctx0 [("r")] [] ("r") [[(("g"), none)]] (by decide)⟩

theorem rowMapE_pure (f : Int → Cell → Except Err Cell) (gf : Cell → Cell)
    (hf : ∀ x c, f x c = .ok (gf c)) : ∀ (l : List Cell) (x : Int),
    rowMapE f l x = .ok (l.map gf) := by
  intro l
  induction l with
  | nil => intro x; rfl
  | cons c cs ih =>
      intro x
      simp only [rowMapE, hf, Bind.bind, Except.bind, List.map_cons, ih]

theorem gridMapE_pure (f : Int → Int → Cell → Except Err Cell) (gf : Cell → Cell)
    (hf : ∀ x y c, f x y c = .ok (gf c)) : ∀ (g : List (List Cell)) (y : Int),
    gridMapE f g y = .ok (g.map (fun r => r.map gf)) := by
  intro g
  induction g with
  | nil => intro y; rfl
  | cons r rs ih =>
      intro y
      simp only [gridMapE, List.map_cons]
      rw [rowMapE_pure (fun x c => f x y c) gf (fun x c => hf x y c) r 0]
      simp only [Bind.bind, Except.bind, ih]

/-- rowMapE preserves the row length. -/
theorem rowMapE_length {f : Int → Cell → Except Err Cell} :
    ∀ (l : List Cell) (x : Int) (l2 : List Cell), rowMapE f l x = .ok l2 →
      l2.length = l.length := by
  intro l
  induction l with
  | nil =>
      intro x l2 h
      injection h with h2
      rw [← h2]
  | cons c0 cs ih =>
      intro x l2 h
      simp only [rowMapE] at h
      obtain ⟨c2, hc2, hrest⟩ := exceptBind_ok h
      obtain ⟨cs2, hcs2, hmk⟩ := exceptBind_ok hrest
      injection hmk with hmk2
      rw [← hmk2]
      simp [ih (x + 1) cs2 hcs2]

/-- gridMapE preserves the number of rows. -/
theorem gridMapE_length {f : Int → Int → Cell → Except Err Cell} :
    ∀ (g : Grid) (y : Int) (g2 : Grid), gridMapE f g y = .ok g2 →
      g2.length = g.length := by
  intro g
  induction g with
  | nil =>
      intro y g2 h
      injection h with h2
      rw [← h2]
  | cons r rs ih =>
      intro y g2 h
      simp only [gridMapE] at h
      obtain ⟨r2, hr2, hrest⟩ := exceptBind_ok h
      obtain ⟨rs2, hrs2, hmk⟩ := exceptBind_ok hrest
      injection hmk with hmk2
      rw [← hmk2]
      simp [ih (y + 1) rs2 hrs2]

/-- gridMapE preserves a uniform row length. -/
theorem gridMapE_rows {w : Nat} {f : Int → Int → Cell → Except Err Cell} :
    ∀ (g : Grid) (y : Int) (g2 : Grid), gridMapE f g y = .ok g2 →
      (∀ row ∈ g, row.length = w) → ∀ row ∈ g2, row.length = w := by
  intro g
  induction g with
  | nil =>
      intro y g2 h hrows
      injection h with h2
      rw [← h2]
      exact hrows
  | cons r rs ih =>
      intro y g2 h hrows
      simp only [gridMapE] at h
      obtain ⟨r2, hr2, hrest⟩ := exceptBind_ok h
      obtain ⟨rs2, hrs2, hmk⟩ := exceptBind_ok hrest
      injection hmk with hmk2
      rw [← hmk2]
      intro row hrow
      rcases List.mem_cons.mp hrow with rfl | hrm
      · rw [rowMapE_length r 0 row hr2]
        exact hrows r (by simp)
      · exact ih (y + 1) rs2 hrs2 (fun d hd => hrows d (by simp [hd])) row hrm

/-- setRow preserves the row length. -/
theorem setRow_length {x0 w : Nat} {b : String} :
    ∀ (l : List Cell) (x : Nat), (setRow x0 w b l x).length = l.length := by
  intro l
  induction l with
  | nil => intro x; rfl
  | cons c cs ih => intro x; simp [setRow, ih (x + 1)]

/-- setFgRow preserves the row length. -/
theorem setFgRow_length {cx : Nat} {f : String} :
    ∀ (l : List Cell) (x : Nat), (setFgRow cx f l x).length = l.length := by
  intro l
  induction l with
  | nil => intro x; rfl
  | cons c cs ih => intro x; simp [setFgRow, ih (x + 1)]

/-- setRectBg preserves the number of rows. -/
theorem setRectBg_length {x0 y0 pw ph : Nat} {b : String} :
    ∀ (g : Grid) (y : Nat), (setRectBg x0 y0 pw ph b g y).length = g.length := by
  intro g
  induction g with
  | nil => intro y; rfl
  | cons r rs ih => intro y; simp [setRectBg, ih (y + 1)]

/-- setRectBg preserves a uniform row length. -/
theorem setRectBg_rows {w x0 y0 pw ph : Nat} {b : String} :
    ∀ (g : Grid) (y : Nat), (∀ row ∈ g, row.length = w) →
      ∀ row ∈ setRectBg x0 y0 pw ph b g y, row.length = w := by
  intro g
  induction g with
  | nil => intro y hrows; exact hrows
  | cons r rs ih =>
      intro y hrows row hrow
      simp only [setRectBg] at hrow
      rcases List.mem_cons.mp hrow with rfl | hrm
      · split
        · rw [setRow_length r 0]
          exact hrows r (by simp)
        · exact hrows r (by simp)
      · exact ih (y + 1) (fun d hd => hrows d (by simp [hd])) row hrm

/-- setCellFg preserves the number of rows. -/
theorem setCellFg_length {cx cy : Nat} {f : String} :
    ∀ (g : Grid) (y : Nat), (setCellFg cx cy f g y).length = g.length := by
  intro g
  induction g with
  | nil => intro y; rfl
  | cons r rs ih => intro y; simp [setCellFg, ih (y + 1)]

/-- setCellFg preserves a uniform row length. -/
theorem setCellFg_rows {w cx cy : Nat} {f : String} :
    ∀ (g : Grid) (y : Nat), (∀ row ∈ g, row.length = w) →
      ∀ row ∈ setCellFg cx cy f g y, row.length = w := by
  intro g
  induction g with
  | nil => intro y hrows; exact hrows
  | cons r rs ih =>
      intro y hrows row hrow
      simp only [setCellFg] at hrow
      rcases List.mem_cons.mp hrow with rfl | hrm
      · split
        · rw [setFgRow_length r 0]
          exact hrows r (by simp)
        · exact hrows r (by simp)
      · exact ih (y + 1) (fun d hd => hrows d (by simp [hd])) row hrm

/-- Stamping a prefab (background footprint plus optional center foreground)
keeps the grid shape. -/
theorem stamp_shape {w h : Nat} {pf : NPrefab} (g : Grid) (x0 y0 cx cy : Nat)
    (hs : GridShape w h g) :
    GridShape w h
      (match pf.fg with
       | some f => setCellFg cx cy f
           (match pf.bg with | some b => setRectBg x0 y0 pf.w pf.h b g 0 | none => g) 0
       | none => match pf.bg with | some b => setRectBg x0 y0 pf.w pf.h b g 0 | none => g) := by
  have hs1 : GridShape w h
      (match pf.bg with | some b => setRectBg x0 y0 pf.w pf.h b g 0 | none => g) := by
    cases hb : pf.bg with
    | some b =>
        simp only [hb]
        exact ⟨by rw [setRectBg_length g 0]; exact hs.1, setRectBg_rows g 0 hs.2⟩
    | none =>
        simp only [hb]
        exact hs
  cases hf : pf.fg with
  | some f =>
      simp only [hf]
      exact ⟨by rw [setCellFg_length _ 0]; exact hs1.1, setCellFg_rows _ 0 hs1.2⟩
  | none =>
      simp only [hf]
      exact hs1

/-- The scatter loop keeps the grid shape. -/
theorem scatterLoop_shape {C : PCtx} {wp : Option JPred} {prefabs : List NPrefab}
    {count width height w h : Nat} :
    ∀ (fuel h0 : Nat) (g : Grid) (occ : Nat → Bool) (placed : Nat) (acc : List Place)
      (att : Nat) (res : ScatterRes),
      scatterLoop C wp prefabs count width height fuel h0 g occ placed acc att = .ok res →
      GridShape w h g → GridShape w h res.grid := by
  intro fuel
  induction fuel with
  | zero =>
      intro h0 g occ placed acc att res hrun hs
      simp only [scatterLoop] at hrun
      injection hrun with h2
      rw [← h2]
      exact hs
  | succ fuel ih =>
      intro h0 g occ placed acc att res hrun hs
      simp only [scatterLoop] at hrun
      by_cases hpc : placed ≥ count
      · rw [if_pos hpc] at hrun
        injection hrun with h2
        rw [← h2]
        exact hs
      · rw [if_neg hpc] at hrun
        obtain ⟨okv, hok, hrest⟩ := exceptBind_ok hrun
        cases okv with
        | false =>
            simp only [Bool.not_false, if_true] at hrest
            exact ih _ _ _ _ _ _ _ hrest hs
        | true =>
            simp only [Bool.not_true, Bool.false_eq_true, if_false] at hrest
            split at hrest
            · exact ih _ _ _ _ _ _ _ hrest hs
            · exact ih _ _ _ _ _ _ _ hrest (stamp_shape g _ _ _ _ hs)

/-- Every op executor keeps the grid shape. -/
theorem execOp_shape {C : PCtx} {bgIds fgIds : List String} {width height w h : Nat} :
    ∀ (e : OpEntry) (g g2 : Grid), execOp C bgIds fgIds width height e g = .ok g2 →
      GridShape w h g → GridShape w h g2 := by
  intro e g g2 hrun hs
  cases e with
  | nonObject =>
      injection hrun with h2
      rw [← h2]
      exact hs
  | paint p =>
      replace hrun : execPaint C bgIds fgIds p g = .ok g2 := hrun
      unfold execPaint at hrun
      obtain ⟨u1, hu1, h1⟩ := exceptBind_ok hrun
      obtain ⟨u2, hu2, h2⟩ := exceptBind_ok h1
      exact ⟨by rw [gridMapE_length g 0 g2 h2]; exact hs.1, gridMapE_rows g 0 g2 h2 hs.2⟩
  | roadsGrid r =>
      replace hrun : execRoads C bgIds fgIds r g = .ok g2 := hrun
      unfold execRoads at hrun
      obtain ⟨u1, hu1, h1⟩ := exceptBind_ok hrun
      obtain ⟨iv, hiv, h2⟩ := exceptBind_ok h1
      exact ⟨by rw [gridMapE_length g 0 g2 h2]; exact hs.1, gridMapE_rows g 0 g2 h2 hs.2⟩
  | stampScatter s =>
      simp only [execOp] at hrun
      obtain ⟨res, hres, h2⟩ := exceptMap_ok hrun
      rw [h2]
      simp only [execScatter] at hres
      split at hres
      · exact absurd hres (by simp)
      · obtain ⟨nprefabs, hnp, h3⟩ := exceptBind_ok hres
        exact scatterLoop_shape _ _ _ _ _ _ _ _ h3 hs
  | unknownOp ty => simp [execOp] at hrun

/-- The op loop keeps the grid shape. -/
theorem execOpsList_shape {C : PCtx} {bgIds fgIds : List String} {width height w h : Nat} :
    ∀ (ops : List OpEntry) (g g2 : Grid),
      execOpsList C bgIds fgIds width height ops g = .ok g2 →
      GridShape w h g → GridShape w h g2 := by
  intro ops
  induction ops with
  | nil =>
      intro g g2 hrun hs
      injection hrun with h2
      rw [← h2]
      exact hs
  | cons op rest ih =>
      intro g g2 hrun hs
      simp only [execOpsList] at hrun
      obtain ⟨g1, hg1, h2⟩ := exceptBind_ok hrun
      exact ih g1 g2 h2 (execOp_shape op g g1 hg1 hs)

/-- The initial grid has the full 200 by 200 shape. -/
theorem gridShape_replicate (w h : Nat) (c : Cell) :
    GridShape w h (List.replicate h (List.replicate w c)) := by
  constructor
  · simp
  · intro row hrow
    rw [List.eq_of_mem_replicate hrow]
    simp

/-- Every successful generate run, whatever the spec and reference, returns
a 200 by 200 area with exactly 200 rows of exactly 200 cells. -/
theorem generate_shape (env : JsEnv) (spec : WorldSpec) (reference : String)
    (out : WorldOutput) (hgen : generate env spec reference = .ok out) :
    out.width = 200 ∧ out.height = 200 ∧ out.cells.length = 200
      ∧ ∀ row ∈ out.cells, row.length = 200 := by
  simp only [generate] at hgen
  obtain ⟨ids, hval, h1⟩ := exceptBind_ok hgen
  split at h1
  · exact absurd h1 (by simp)
  · split at h1
    · exact absurd h1 (by simp)
    · obtain ⟨gF, hgF, h2⟩ := exceptBind_ok h1
      injection h2 with h3
      rw [← h3]
      have hshape : GridShape 200 200 gF :=
        execOpsList_shape _ _ _ hgF (gridShape_replicate 200 200 _)
      exact ⟨rfl, rfl, hshape.1, hshape.2⟩

set_option maxRecDepth 100000 in
set_option maxHeartbeats 2000000 in
theorem generate_spec4 (env : JsEnv) (seed : String) :
    generate env spec4 seed = .ok out4 := rfl

/-- C3 amended: the engine ignores the spec's requested world size and fixes
the grid to 200 by 200 (Generate hard-codes width = height = 200 and
overwrites spec.world), so the paint scenario yields a 200 by 200 grid —
with exactly height rows of width entries — in which every cell is the pair
(bg0, null); and in general every successful generate run returns
area.width = area.height = 200 with exactly 200 rows of exactly 200 cells.
The claimed 4 by 4 output shape is the only part that fails. -/
theorem paint_scenario_fixed_size (env : JsEnv) (seed : String) :
    (generate env spec4 seed = .ok out4
      ∧ out4.width = 200 ∧ out4.height = 200
      ∧ out4.cells.length = out4.height
      ∧ (∀ row ∈ out4.cells, row.length = out4.width ∧ ∀ c ∈ row, c = (("bg0"), none)))
    ∧ ∀ (spec : WorldSpec) (r : String) (out : WorldOutput),
        generate env spec r = .ok out →
        out.width = 200 ∧ out.height = 200 ∧ out.cells.length = 200
          ∧ ∀ row ∈ out.cells, row.length = 200 := by
  have hcells : out4.cells = List.replicate 200 (List.replicate 200 (("bg0"), none)) := rfl
  refine ⟨⟨generate_spec4 env seed, rfl, rfl, ?_, ?_⟩,
    fun spec r out hgen => generate_shape env spec r out hgen⟩
  · rw [hcells, List.length_replicate]
    rfl
  · intro row hrow
    rw [hcells] at hrow
    have hr : row = List.replicate 200 ((("bg0") : String), (none : Option String)) :=
      List.eq_of_mem_replicate hrow
    constructor
    · rw [hr, List.length_replicate]
      rfl
    · intro c hc
      rw [hr] at hc
      exact List.eq_of_mem_replicate hc

theorem paint_scenario_fixed_size_witness :
    generate env0 spec4 ("s") = .ok out4
      ∧ out4.width = 200 ∧ out4.height = 200 ∧ out4.cells.length = 200
      ∧ ∀ row ∈ out4.cells, row.length = 200 :=
  ⟨generate_spec4 env0 ("s"),
    (paint_scenario_fixed_size env0 ("s")).2 spec4 ("s") out4 (generate_spec4 env0 ("s"))⟩

/-- C3 counterexample: spec4 requests a 4 by 4 grid, but generate returns
width 200 — the output size does not equal the requested grid size. -/
theorem paint_scenario_size_counterexample :
    spec4.world = some (4, 4)
      ∧ (generate env0 spec4 ("s")).map (fun o => o.width) = .ok 200
      ∧ (200 : Nat) ≠ 4 := by
  refine ⟨rfl, ?_, by decide⟩
  rw [generate_spec4 env0 ("s")]
  rfl

theorem bool_of_not_not {b : Bool} (h : ¬ (!b) = true) : b = true := by
  cases b
  · exact absurd rfl h
  · rfl

theorem placeDisj_symm {p q : Place} (h : PlaceDisj p q) : PlaceDisj q p := by
  intro a b hq hp
  exact h a b hp hq

theorem canPlace_true {occ : Nat → Bool} {width height : Nat} {x0 y0 : Int} {w h : Nat}
    (hc : canPlace occ width height x0 y0 w h = true) :
    0 ≤ x0 ∧ 0 ≤ y0 ∧ x0 + w ≤ (width : Int) ∧ y0 + h ≤ (height : Int) ∧
      ∀ dx dy, dx < w → dy < h → occ ((y0.toNat + dy) * width + (x0.toNat + dx)) = false := by
  unfold canPlace at hc
  split at hc
  · exact absurd hc (by simp)
  · rename_i hcond
    simp only [Bool.or_eq_true, decide_eq_true_eq, not_or] at hcond
    refine ⟨by omega, by omega, by omega, by omega, ?_⟩
    intro dx dy hdx hdy
    simp only [List.all_eq_true, List.mem_range] at hc
    have := hc dy hdy dx hdx
    simpa using this

theorem markPlace_mono {occ : Nat → Bool} {width x0 y0 w h i : Nat} (hi : occ i = true) :
    markPlace occ width x0 y0 w h i = true := by
  simp [markPlace, hi]

theorem markPlace_covers (occ : Nat → Bool) (width x0 y0 w h dx dy : Nat)
    (hdx : dx < w) (hdy : dy < h) :
    markPlace occ width x0 y0 w h ((y0 + dy) * width + (x0 + dx)) = true := by
  simp only [markPlace, Bool.or_eq_true, List.any_eq_true, List.mem_range]
  right
  exact ⟨dy, hdy, dx, hdx, by simp⟩

theorem place_step {occ : Nat → Bool} {width height : Nat} {x0 y0 : Int} {w h : Nat}
    {acc : List Place}
    (hcp : canPlace occ width height x0 y0 w h = true)
    (hmark : ∀ p ∈ acc, p.x + p.w ≤ width ∧
      ∀ a b, inFoot p a b → occ (b * width + a) = true)
    (hpw : List.Pairwise PlaceDisj acc) :
    (∀ p ∈ Place.mk x0.toNat y0.toNat w h :: acc, p.x + p.w ≤ width ∧
      ∀ a b, inFoot p a b → markPlace occ width x0.toNat y0.toNat w h (b * width + a) = true)
    ∧ List.Pairwise PlaceDisj (Place.mk x0.toNat y0.toNat w h :: acc) := by
  obtain ⟨hx0, hy0, hxw, hyh, hclear⟩ := canPlace_true hcp
  have hplb : ∀ a b, inFoot (Place.mk x0.toNat y0.toNat w h) a b →
      occ (b * width + a) = false := by
    intro a b hf
    obtain ⟨h1, h2, h3, h4⟩ := hf
    simp only at h1 h2 h3 h4
    have hcl := hclear (a - x0.toNat) (b - y0.toNat) (by omega) (by omega)
    rw [show y0.toNat + (b - y0.toNat) = b from by omega,
        show x0.toNat + (a - x0.toNat) = a from by omega] at hcl
    exact hcl
  constructor
  · intro p hp
    rcases List.mem_cons.mp hp with hpe | hpo
    · subst hpe
      refine ⟨by simp only; omega, ?_⟩
      intro a b hf
      obtain ⟨h1, h2, h3, h4⟩ := hf
      simp only at h1 h2 h3 h4
      have hmc := markPlace_covers occ width x0.toNat y0.toNat w h
        (a - x0.toNat) (b - y0.toNat) (by omega) (by omega)
      rw [show y0.toNat + (b - y0.toNat) = b from by omega,
          show x0.toNat + (a - x0.toNat) = a from by omega] at hmc
      exact hmc
    · obtain ⟨hb, hm⟩ := hmark p hpo
      exact ⟨hb, fun a b hf => markPlace_mono (hm a b hf)⟩
  · rw [List.pairwise_cons]
    refine ⟨?_, hpw⟩
    intro q hq a b hfp hfq
    obtain ⟨-, hqm⟩ := hmark q hq
    have hocc1 := hplb a b hfp
    have hocc2 := hqm a b hfq
    rw [hocc1] at hocc2
    exact Bool.false_ne_true hocc2

theorem exit_case {acc : List Place} {att count placed : Nat}
    (hpw : List.Pairwise PlaceDisj acc) (hlen : placed = acc.length)
    (hcount : placed ≤ count) (hatt : acc.length ≤ att) :
    List.Pairwise PlaceDisj acc.reverse ∧ acc.reverse.length ≤ count
      ∧ acc.reverse.length ≤ att := by
  refine ⟨?_, ?_, ?_⟩
  · rw [List.pairwise_reverse]
    exact hpw.imp (fun hd => placeDisj_symm hd)
  · rw [List.length_reverse]
    omega
  · rw [List.length_reverse]
    omega

theorem scatterLoop_inv (C : PCtx) (wp : Option JPred) (prefabs : List NPrefab)
    (count width height : Nat) :
    ∀ (fuel : Nat) (h0 : Nat) (g : Grid) (occ : Nat → Bool) (placed : Nat)
      (acc : List Place) (att : Nat) (res : ScatterRes),
      scatterLoop C wp prefabs count width height fuel h0 g occ placed acc att = .ok res →
      (∀ p ∈ acc, p.x + p.w ≤ width ∧
        ∀ a b, inFoot p a b → occ (b * width + a) = true) →
      List.Pairwise PlaceDisj acc →
      placed = acc.length → placed ≤ count → acc.length ≤ att →
      List.Pairwise PlaceDisj res.placements ∧ res.placements.length ≤ count
        ∧ res.placements.length ≤ res.attempts := by
  intro fuel
  induction fuel with
  | zero =>
      intro h0 g occ placed acc att res hrun hmark hpw hlen hcount hatt
      simp only [scatterLoop] at hrun
      injection hrun with hres
      rw [← hres]
      exact exit_case hpw hlen hcount hatt
  | succ fuel ih =>
      intro h0 g occ placed acc att res hrun hmark hpw hlen hcount hatt
      simp only [scatterLoop] at hrun
      by_cases hpc : placed ≥ count
      · rw [if_pos hpc] at hrun
        injection hrun with hres
        rw [← hres]
        exact exit_case hpw hlen hcount hatt
      · rw [if_neg hpc] at hrun
        obtain ⟨okv, hok, hrest⟩ := exceptBind_ok hrun
        cases okv with
        | false =>
            simp only [Bool.not_false, if_true] at hrest
            exact ih _ _ _ _ _ _ _ hrest hmark hpw hlen hcount (by omega)
        | true =>
            simp only [Bool.not_true, Bool.false_eq_true, if_false] at hrest
            split at hrest
            · exact ih _ _ _ _ _ _ _ hrest hmark hpw hlen hcount (by omega)
            · rename_i hcpn
              obtain ⟨hmark2, hpw2⟩ := place_step (bool_of_not_not hcpn) hmark hpw
              refine ih _ _ _ _ _ _ _ hrest hmark2 hpw2 (by simp; omega)
                (by omega) (by simp; omega)

/-- C6: after a single stamp.scatter op (the placement loop started, as
execScatter starts it, with no placements and attempt counter zero), the
recorded placement footprints are pairwise disjoint — the occupancy bitmap
rejects any candidate overlapping an earlier footprint of the same op — and
the number of placements is at most the target count and at most the number
of loop iterations (attempts) actually executed. -/
theorem scatter_nonoverlap (C : PCtx) (wp : Option JPred) (prefabs : List NPrefab)
    (count width height fuel h0 : Nat) (g : Grid) (occ : Nat → Bool) (res : ScatterRes)
    (hrun : scatterLoop C wp prefabs count width height fuel h0 g occ 0 [] 0 = .ok res) :
    List.Pairwise PlaceDisj res.placements ∧ res.placements.length ≤ count
      ∧ res.placements.length ≤ res.attempts :=
  scatterLoop_inv C wp prefabs count width height fuel h0 g occ 0 [] 0 res hrun
    (by simp) (by simp) rfl (Nat.zero_le _) (Nat.le_refl 0)

theorem scatter_nonoverlap_witness :
    scatterLoop pctx0 none [pfOne] 1 2 2 1 1 [] (fun _ => false) 0 [] 0
        = .ok (ScatterRes.mk [] 1 [Place.mk 0 0 1 1] 1)
      ∧ (List.Pairwise PlaceDisj [Place.mk 0 0 1 1] ∧ [Place.mk 0 0 1 1].length ≤ 1
          ∧ [Place.mk 0 0 1 1].length ≤ 1) := by
  have e1 : rngDraw 1 = ((2452329 : ℚ) / 4294967296, 2452329) := by
    unfold rngDraw
    rw [show rngStep 1 = 2452329 from by decide]
    norm_num
  have e2 : rngDraw 2452329 = ((1979493244 : ℚ) / 4294967296, 1979493244) := by
    unfold rngDraw
    rw [show rngStep 2452329 = 1979493244 from by decide]
    norm_num
  have e3 : rngDraw 1979493244 = ((1370143283 : ℚ) / 4294967296, 1370143283) := by
    unfold rngDraw
    rw [show rngStep 1979493244 = 1370143283 from by decide]
    norm_num
  have epk : pickWeighted 1 [pfOne] = (pfOne, 2452329) := by
    simp only [pickWeighted, pfWeight, pfOne, List.map_cons, List.map_nil, List.sum_cons,
      List.sum_nil, e1, cumScan]
    norm_num
  have h : scatterLoop pctx0 none [pfOne] 1 2 2 1 1 [] (fun _ => false) 0 [] 0
      = .ok (ScatterRes.mk [] 1 [Place.mk 0 0 1 1] 1) := by
    simp only [scatterLoop]
    rw [if_neg (by omega)]
    simp only [epk, e2, e3, predOptTrue, Bind.bind, Except.bind]
    norm_num [pfOne, canPlace]
  exact ⟨h, scatter_nonoverlap pctx0 none [pfOne] 1 2 2 1 1 [] (fun _ => false)
    (ScatterRes.mk [] 1 [Place.mk 0 0 1 1] 1) h⟩

theorem requireBg_ok {bgIds : List String} {id : String} (h : requireBg bgIds id = .ok ()) :
    id ∈ bgIds := by
  unfold requireBg at h
  split at h
  · assumption
  · exact absurd h (by simp)

theorem requireFg_ok {fgIds : List String} {id : String} (h : requireFg fgIds id = .ok ()) :
    id ∈ fgIds := by
  unfold requireFg at h
  split at h
  · assumption
  · exact absurd h (by simp)

theorem rowMapE_preserve {P : Cell → Prop} {f : Int → Cell → Except Err Cell}
    (hf : ∀ x c c2, f x c = .ok c2 → P c → P c2) :
    ∀ (l : List Cell) (x : Int) (l2 : List Cell), rowMapE f l x = .ok l2 →
      (∀ c ∈ l, P c) → ∀ c ∈ l2, P c := by
  intro l
  induction l with
  | nil =>
      intro x l2 h hall c hc
      injection h with h2
      rw [← h2] at hc
      simp at hc
  | cons c0 cs ih =>
      intro x l2 h hall c hc
      simp only [rowMapE] at h
      obtain ⟨c2, hc2, hrest⟩ := exceptBind_ok h
      obtain ⟨cs2, hcs2, hmk⟩ := exceptBind_ok hrest
      injection hmk with hmk2
      rw [← hmk2] at hc
      rcases List.mem_cons.mp hc with rfl | hcm
      · exact hf x c0 c hc2 (hall c0 (by simp))
      · exact ih (x + 1) cs2 hcs2 (fun d hd => hall d (by simp [hd])) c hcm

theorem gridMapE_preserve {P : Cell → Prop} {f : Int → Int → Cell → Except Err Cell}
    (hf : ∀ x y c c2, f x y c = .ok c2 → P c → P c2) :
    ∀ (g : List (List Cell)) (y : Int) (g2 : List (List Cell)), gridMapE f g y = .ok g2 →
      (∀ row ∈ g, ∀ c ∈ row, P c) → ∀ row ∈ g2, ∀ c ∈ row, P c := by
  intro g
  induction g with
  | nil =>
      intro y g2 h hall row hrow
      injection h with h2
      rw [← h2] at hrow
      simp at hrow
  | cons r rs ih =>
      intro y g2 h hall row hrow
      simp only [gridMapE] at h
      obtain ⟨r2, hr2, hrest⟩ := exceptBind_ok h
      obtain ⟨rs2, hrs2, hmk⟩ := exceptBind_ok hrest
      injection hmk with hmk2
      rw [← hmk2] at hrow
      rcases List.mem_cons.mp hrow with rfl | hrm
      · exact rowMapE_preserve (fun x c c2 hc => hf x y c c2 hc) r 0 row hr2
          (hall r (by simp))
      · exact ih (y + 1) rs2 hrs2 (fun d hd => hall d (by simp [hd])) row hrm

theorem paintCell_preserve {C : PCtx} {p : PaintOp} {bgIds fgIds : List String}
    (hbg : ∀ b, p.bg = some b → b ∈ bgIds)
    (hfg : ∀ s, p.fg = FgField.idF s → s ∈ fgIds) :
    ∀ (x y : Int) (c c2 : Cell), paintCell C p x y c = .ok c2 →
      CellOk bgIds fgIds c → CellOk bgIds fgIds c2 := by
  intro x y c c2 h hc
  unfold paintCell at h
  obtain ⟨okv, hok, hrest⟩ := exceptBind_ok h
  cases okv with
  | false =>
      simp only [Bool.false_eq_true, if_false] at hrest
      injection hrest with h2
      rw [← h2]
      exact hc
  | true =>
      simp only [if_true] at hrest
      injection hrest with h2
      rw [← h2]
      constructor
      · cases hpbg : p.bg with
        | some b => exact hbg b hpbg
        | none => exact hc.1
      · cases hpfg : p.fg with
        | absent => exact hc.2
        | nullF => exact Or.inl rfl
        | idF s => exact Or.inr ⟨s, rfl, hfg s hpfg⟩

theorem execPaint_preserve {C : PCtx} {bgIds fgIds : List String} {p : PaintOp}
    {g g2 : Grid} (h : execPaint C bgIds fgIds p g = .ok g2)
    (hg : GridOk bgIds fgIds g) : GridOk bgIds fgIds g2 := by
  unfold execPaint at h
  obtain ⟨u1, hu1, h1⟩ := exceptBind_ok h
  obtain ⟨u2, hu2, h2⟩ := exceptBind_ok h1
  have hbg : ∀ b, p.bg = some b → b ∈ bgIds := by
    intro b hb
    rw [hb] at hu1
    exact requireBg_ok (by cases u1; exact hu1)
  have hfg : ∀ s, p.fg = FgField.idF s → s ∈ fgIds := by
    intro s hs
    rw [hs] at hu2
    exact requireFg_ok (by cases u2; exact hu2)
  exact gridMapE_preserve (paintCell_preserve hbg hfg) g 0 g2 h2 hg

theorem roadsCell_preserve {C : PCtx} {wp : Option JPred} {bgId : String}
    {ox oy spacing thickness : Int} {interId : Option String} {interP : ℚ}
    {interSeed : String} {bgIds fgIds : List String}
    (hb : bgId ∈ bgIds) (hi : ∀ iid, interId = some iid → iid ∈ fgIds) :
    ∀ (x y : Int) (c c2 : Cell),
      roadsCell C wp bgId ox oy spacing thickness interId interP interSeed x y c = .ok c2 →
      CellOk bgIds fgIds c → CellOk bgIds fgIds c2 := by
  intro x y c c2 h hc
  unfold roadsCell at h
  obtain ⟨okv, hok, hrest⟩ := exceptBind_ok h
  cases okv with
  | false =>
      simp only [Bool.not_false, if_true] at hrest
      injection hrest with h2
      rw [← h2]
      exact hc
  | true =>
      simp only [Bool.not_true, Bool.false_eq_true, if_false] at hrest
      split at hrest
      · injection hrest with h2
        rw [← h2]
        exact hc
      · injection hrest with h2
        rw [← h2]
        refine ⟨hb, ?_⟩
        cases hii : interId with
        | none =>
            simp only [hii]
            exact hc.2
        | some iid =>
            simp only [hii]
            split
            · exact Or.inr ⟨iid, rfl, hi iid hii⟩
            · exact hc.2

theorem execRoads_preserve {C : PCtx} {bgIds fgIds : List String} {r : RoadsOp}
    {g g2 : Grid} (h : execRoads C bgIds fgIds r g = .ok g2)
    (hg : GridOk bgIds fgIds g) : GridOk bgIds fgIds g2 := by
  unfold execRoads at h
  obtain ⟨u1, hu1, h1⟩ := exceptBind_ok h
  obtain ⟨iv, hiv, h2⟩ := exceptBind_ok h1
  have hb : r.bg ∈ bgIds := requireBg_ok (by cases u1; exact hu1)
  have hi : ∀ iid, iv.1 = some iid → iid ∈ fgIds := by
    cases hri : r.inter with
    | none =>
        rw [hri] at hiv
        injection hiv with h3
        rw [← h3]
        intro iid hiid
        simp at hiid
    | some i =>
        rw [hri] at hiv
        obtain ⟨u2, hu2, h3⟩ := exceptBind_ok hiv
        injection h3 with h4
        rw [← h4]
        intro iid hiid
        simp only at hiid
        rw [hiid] at hu2
        exact requireFg_ok (by cases u2; exact hu2)
  exact gridMapE_preserve (roadsCell_preserve hb hi) g 0 g2 h2 hg

theorem setRow_preserve {bgIds fgIds : List String} {x0 w : Nat} {b : String}
    (hb : b ∈ bgIds) : ∀ (l : List Cell) (x : Nat),
    (∀ c ∈ l, CellOk bgIds fgIds c) → ∀ c ∈ setRow x0 w b l x, CellOk bgIds fgIds c := by
  intro l
  induction l with
  | nil =>
      intro x hall c hc
      simp [setRow] at hc
  | cons c0 cs ih =>
      intro x hall c hc
      simp only [setRow] at hc
      rcases List.mem_cons.mp hc with rfl | hcm
      · split
        · exact ⟨hb, (hall c0 (by simp)).2⟩
        · exact hall c0 (by simp)
      · exact ih (x + 1) (fun d hd => hall d (by simp [hd])) c hcm

theorem setRectBg_preserve {bgIds fgIds : List String} {x0 y0 w h : Nat} {b : String}
    (hb : b ∈ bgIds) : ∀ (g : Grid) (y : Nat),
    GridOk bgIds fgIds g → GridOk bgIds fgIds (setRectBg x0 y0 w h b g y) := by
  intro g
  induction g with
  | nil =>
      intro y hg row hrow
      simp [setRectBg] at hrow
  | cons r rs ih =>
      intro y hg row hrow
      simp only [setRectBg] at hrow
      rcases List.mem_cons.mp hrow with rfl | hrm
      · split
        · exact setRow_preserve hb r 0 (hg r (by simp))
        · exact hg r (by simp)
      · exact ih (y + 1) (fun d hd => hg d (by simp [hd])) row hrm

theorem setFgRow_preserve {bgIds fgIds : List String} {cx : Nat} {f : String}
    (hf : f ∈ fgIds) : ∀ (l : List Cell) (x : Nat),
    (∀ c ∈ l, CellOk bgIds fgIds c) → ∀ c ∈ setFgRow cx f l x, CellOk bgIds fgIds c := by
  intro l
  induction l with
  | nil =>
      intro x hall c hc
      simp [setFgRow] at hc
  | cons c0 cs ih =>
      intro x hall c hc
      simp only [setFgRow] at hc
      rcases List.mem_cons.mp hc with rfl | hcm
      · split
        · exact ⟨(hall c0 (by simp)).1, Or.inr ⟨f, rfl, hf⟩⟩
        · exact hall c0 (by simp)
      · exact ih (x + 1) (fun d hd => hall d (by simp [hd])) c hcm

theorem setCellFg_preserve {bgIds fgIds : List String} {cx cy : Nat} {f : String}
    (hf : f ∈ fgIds) : ∀ (g : Grid) (y : Nat),
    GridOk bgIds fgIds g → GridOk bgIds fgIds (setCellFg cx cy f g y) := by
  intro g
  induction g with
  | nil =>
      intro y hg row hrow
      simp [setCellFg] at hrow
  | cons r rs ih =>
      intro y hg row hrow
      simp only [setCellFg] at hrow
      rcases List.mem_cons.mp hrow with rfl | hrm
      · split
        · exact setFgRow_preserve hf r 0 (hg r (by simp))
        · exact hg r (by simp)
      · exact ih (y + 1) (fun d hd => hg d (by simp [hd])) row hrm

theorem cumScan_mem : ∀ {t : ℚ} {items : List NPrefab} {pf : NPrefab},
    cumScan t items = some pf → pf ∈ items := by
  intro t items
  induction items generalizing t with
  | nil =>
      intro pf h
      simp [cumScan] at h
  | cons it rest ih =>
      intro pf h
      simp only [cumScan] at h
      split at h
      · injection h with h2
        rw [← h2]
        exact List.mem_cons_self it rest
      · exact List.mem_cons_of_mem it (ih h)

theorem headI_mem {l : List NPrefab} (h : l ≠ []) : l.headI ∈ l := by
  cases l with
  | nil => exact absurd rfl h
  | cons a rest => simp [List.headI]

theorem getLastD_mem : ∀ (l : List NPrefab) (d : NPrefab), l ≠ [] → l.getLastD d ∈ l := by
  intro l
  induction l with
  | nil =>
      intro d h
      exact absurd rfl h
  | cons a rest ih =>
      intro d h
      rw [List.getLastD_cons]
      by_cases hr : rest = []
      · subst hr
        simp [List.getLastD]
      · exact List.mem_cons_of_mem a (ih a hr)

theorem pickWeighted_mem {h : Nat} {items : List NPrefab} (hne : items ≠ []) :
    (pickWeighted h items).1 ∈ items := by
  simp only [pickWeighted]
  split
  · exact headI_mem hne
  · cases hcs : cumScan ((rngDraw h).1 * (items.map pfWeight).sum) items with
    | some pf => simp only [hcs, Option.getD_some]; exact cumScan_mem hcs
    | none => simp only [hcs, Option.getD_none]; exact getLastD_mem items default hne

theorem normalizePrefabs_ok {bgIds fgIds : List String} :
    ∀ {l : List Prefab} {l2 : List NPrefab}, normalizePrefabs bgIds fgIds l = .ok l2 →
      (∀ pf ∈ l2, (∀ b, pf.bg = some b → b ∈ bgIds) ∧ (∀ f, pf.fg = some f → f ∈ fgIds))
        ∧ l2.length = l.length := by
  intro l
  induction l with
  | nil =>
      intro l2 h
      injection h with h2
      rw [← h2]
      exact ⟨by simp, rfl⟩
  | cons pf rest ih =>
      intro l2 h
      simp only [normalizePrefabs] at h
      obtain ⟨u1, hu1, h1⟩ := exceptBind_ok h
      obtain ⟨u2, hu2, h2⟩ := exceptBind_ok h1
      obtain ⟨rest2, hrest2, h3⟩ := exceptBind_ok h2
      injection h3 with h4
      rw [← h4]
      obtain ⟨ihm, ihl⟩ := ih hrest2
      refine ⟨?_, by simp [ihl]⟩
      intro q hq
      rcases List.mem_cons.mp hq with rfl | hqm
      · constructor
        · intro b hb
          simp only at hb
          rw [hb] at hu1
          exact requireBg_ok (by cases u1; exact hu1)
        · intro f hf
          simp only at hf
          rw [hf] at hu2
          exact requireFg_ok (by cases u2; exact hu2)
      · exact ihm q hqm

theorem stamp_preserve {bgIds fgIds : List String} {pf : NPrefab}
    (hbg : ∀ b, pf.bg = some b → b ∈ bgIds) (hfg : ∀ f, pf.fg = some f → f ∈ fgIds)
    (g : Grid) (x0 y0 cx cy : Nat) (hg : GridOk bgIds fgIds g) :
    GridOk bgIds fgIds
      (match pf.fg with
       | some f => setCellFg cx cy f
           (match pf.bg with | some b => setRectBg x0 y0 pf.w pf.h b g 0 | none => g) 0
       | none => match pf.bg with | some b => setRectBg x0 y0 pf.w pf.h b g 0 | none => g) := by
  have hg1 : GridOk bgIds fgIds
      (match pf.bg with | some b => setRectBg x0 y0 pf.w pf.h b g 0 | none => g) := by
    cases hb : pf.bg with
    | some b =>
        simp only [hb]
        exact setRectBg_preserve (hbg b hb) g 0 hg
    | none =>
        simp only [hb]
        exact hg
  cases hf : pf.fg with
  | some f =>
      simp only [hf]
      exact setCellFg_preserve (hfg f hf) _ 0 hg1
  | none =>
      simp only [hf]
      exact hg1

theorem scatterLoop_gridOk {C : PCtx} {wp : Option JPred} {prefabs : List NPrefab}
    {count width height : Nat} {bgIds fgIds : List String}
    (hpf : ∀ pf ∈ prefabs, (∀ b, pf.bg = some b → b ∈ bgIds)
      ∧ (∀ f, pf.fg = some f → f ∈ fgIds))
    (hne : prefabs ≠ []) :
    ∀ (fuel h0 : Nat) (g : Grid) (occ : Nat → Bool) (placed : Nat) (acc : List Place)
      (att : Nat) (res : ScatterRes),
      scatterLoop C wp prefabs count width height fuel h0 g occ placed acc att = .ok res →
      GridOk bgIds fgIds g → GridOk bgIds fgIds res.grid := by
  intro fuel
  induction fuel with
  | zero =>
      intro h0 g occ placed acc att res hrun hg
      simp only [scatterLoop] at hrun
      injection hrun with h2
      rw [← h2]
      exact hg
  | succ fuel ih =>
      intro h0 g occ placed acc att res hrun hg
      simp only [scatterLoop] at hrun
      by_cases hpc : placed ≥ count
      · rw [if_pos hpc] at hrun
        injection hrun with h2
        rw [← h2]
        exact hg
      · rw [if_neg hpc] at hrun
        obtain ⟨okv, hok, hrest⟩ := exceptBind_ok hrun
        cases okv with
        | false =>
            simp only [Bool.not_false, if_true] at hrest
            exact ih _ _ _ _ _ _ _ hrest hg
        | true =>
            simp only [Bool.not_true, Bool.false_eq_true, if_false] at hrest
            split at hrest
            · exact ih _ _ _ _ _ _ _ hrest hg
            · exact ih _ _ _ _ _ _ _ hrest
                (stamp_preserve (hpf _ (pickWeighted_mem hne)).1
                  (hpf _ (pickWeighted_mem hne)).2 g _ _ _ _ hg)

theorem execScatter_gridOk {C : PCtx} {bgIds fgIds : List String} {width height : Nat}
    {op : ScatterOp} {g : Grid} {res : ScatterRes}
    (h : execScatter C bgIds fgIds width height op g = .ok res)
    (hg : GridOk bgIds fgIds g) : GridOk bgIds fgIds res.grid := by
  simp only [execScatter] at h
  split at h
  · exact absurd h (by simp)
  · obtain ⟨nprefabs, hnp, h2⟩ := exceptBind_ok h
    obtain ⟨hpf, hlen⟩ := normalizePrefabs_ok hnp
    rename_i hcond
    have hcp := bool_of_not_not hcond
    simp only [Bool.and_eq_true, decide_eq_true_eq] at hcp
    have hne : nprefabs ≠ [] := by
      intro heq
      rw [heq] at hlen
      simp at hlen
      omega
    exact scatterLoop_gridOk hpf hne _ _ _ _ _ _ _ _ h2 hg

theorem execOp_preserve {C : PCtx} {bgIds fgIds : List String} {width height : Nat} :
    ∀ (e : OpEntry) (g g2 : Grid), execOp C bgIds fgIds width height e g = .ok g2 →
      GridOk bgIds fgIds g → GridOk bgIds fgIds g2 := by
  intro e g g2 h hg
  cases e with
  | nonObject =>
      injection h with h2
      rw [← h2]
      exact hg
  | paint p => exact execPaint_preserve h hg
  | roadsGrid r => exact execRoads_preserve h hg
  | stampScatter s =>
      simp only [execOp] at h
      obtain ⟨res, hres, h2⟩ := exceptMap_ok h
      rw [h2]
      exact execScatter_gridOk hres hg
  | unknownOp ty => simp [execOp] at h

theorem execOpsList_preserve {C : PCtx} {bgIds fgIds : List String} {width height : Nat} :
    ∀ (ops : List OpEntry) (g g2 : Grid),
      execOpsList C bgIds fgIds width height ops g = .ok g2 →
      GridOk bgIds fgIds g → GridOk bgIds fgIds g2 := by
  intro ops
  induction ops with
  | nil =>
      intro g g2 h hg
      injection h with h2
      rw [← h2]
      exact hg
  | cons op rest ih =>
      intro g g2 h hg
      simp only [execOpsList] at h
      obtain ⟨g1, hg1, h2⟩ := exceptBind_ok h
      exact ih g1 g2 h2 (execOp_preserve op g g1 hg1 hg)

theorem validateTiles_ok {t : Tiles} {ids : List String × List String}
    (h : validateTiles t = .ok ids) :
    ids = (t.background.map (fun b => b.id), t.foreground.map (fun f => f.id))
      ∧ t.background ≠ [] := by
  unfold validateTiles at h
  split at h
  · exact absurd h (by simp)
  · rename_i hlen
    obtain ⟨u1, hu1, h1⟩ := exceptBind_ok h
    obtain ⟨u2, hu2, h2⟩ := exceptBind_ok h1
    obtain ⟨u3, hu3, h3⟩ := exceptBind_ok h2
    obtain ⟨u4, hu4, h4⟩ := exceptBind_ok h3
    injection h4 with h5
    refine ⟨h5.symm, ?_⟩
    intro heq
    rw [heq] at hlen
    simp at hlen

theorem sanitizeFg_id (env : JsEnv) (t : FgTile) : (sanitizeFg env t).id = t.id := by
  unfold sanitizeFg
  split
  · rfl
  · split
    · rfl
    · split
      · rfl
      · rfl

theorem sanitize_map_id (env : JsEnv) (l : List FgTile) :
    (l.map (sanitizeFg env)).map (fun f => f.id) = l.map (fun f => f.id) := by
  induction l with
  | nil => rfl
  | cons a r ih => simp [sanitizeFg_id, ih]

theorem gridOk_replicate {bgIds fgIds : List String} {c : Cell}
    (hc : CellOk bgIds fgIds c) (n m : Nat) :
    GridOk bgIds fgIds (List.replicate n (List.replicate m c)) := by
  intro row hrow c2 hc2
  rw [List.eq_of_mem_replicate hrow] at hc2
  rw [List.eq_of_mem_replicate hc2]
  exact hc

theorem headI_id_mem {l : List BgTile} (h : l ≠ []) :
    (l.headI).id ∈ l.map (fun b => b.id) := by
  cases l with
  | nil => exact absurd rfl h
  | cons a rest => simp [List.headI]

/-- C2: every cell of a successfully generated output has a background id
drawn from the validated background tile id set and a foreground id that is
either null or drawn from the validated foreground tile id set — established
by the initial grid (first background tile, no foreground) and preserved by
every paint, roads.grid and stamp.scatter mutation, each of which checks its
tile references through requireBg / requireFgOrNull before writing. -/
theorem id_integrity (env : JsEnv) (spec : WorldSpec) (reference : String)
    (out : WorldOutput) (hgen : generate env spec reference = .ok out) :
    ∀ row ∈ out.cells, ∀ c ∈ row,
      c.1 ∈ out.tiles.background.map (fun t => t.id) ∧
        (c.2 = none ∨ ∃ s, c.2 = some s ∧ s ∈ out.tiles.foreground.map (fun t => t.id)) := by
  simp only [generate] at hgen
  obtain ⟨ids, hval, h1⟩ := exceptBind_ok hgen
  obtain ⟨hids, hbgne⟩ := validateTiles_ok hval
  subst hids
  split at h1
  · exact absurd h1 (by simp)
  · split at h1
    · exact absurd h1 (by simp)
    · obtain ⟨gF, hgF, h2⟩ := exceptBind_ok h1
      injection h2 with h3
      rw [← h3]
      have hgrid := execOpsList_preserve _ _ _ hgF
        (gridOk_replicate ⟨headI_id_mem hbgne, Or.inl rfl⟩ 200 200)
      intro row hrow c hc
      have hcell := hgrid row hrow c hc
      refine ⟨hcell.1, ?_⟩
      rcases hcell.2 with hnone | ⟨s, hs, hmem⟩
      · exact Or.inl hnone
      · refine Or.inr ⟨s, hs, ?_⟩
        rw [show (WorldOutput.mk (Tiles.mk _ _) 200 200 gF).tiles.foreground = _ from rfl]
        rw [sanitize_map_id]
        exact hmem

theorem id_integrity_witness :
    generate env0 specW ("s") = .ok outW
      ∧ (∀ row ∈ outW.cells, ∀ c ∈ row,
          c.1 ∈ outW.tiles.background.map (fun t => t.id) ∧
            (c.2 = none ∨ ∃ s, c.2 = some s ∧ s ∈ outW.tiles.foreground.map (fun t => t.id))) := by
  have h : generate env0 specW ("s") = .ok outW := rfl
  exact ⟨h, id_integrity env0 specW ("s") outW h⟩
